import Mathlib

/-!
# LCD 16x2 over PCF8574 (I2C): driver model

Shallow embedding of `Core/Src/LCD_Driver.c` and `Core/Inc/LCD_Driver.h`.

* `uint8_t` values are natural numbers, reduced `% 256` wherever the C code stores
  an `int` expression into an 8-bit object.
* `int8_t` / `int` values are integers.
* The handle is passed through every operation explicitly, together with the
  ordered trace of the HAL calls made so far (`HAL_I2C_Master_Transmit`, `HAL_Delay`)
  and a ghost record of the arguments with which `_LCDI2C_send_char` was entered.
* A C string is the list of bytes of its buffer; reading stops at the first zero byte.
* The platform formatter behind `sprintf(num_buff, "%.Nf", num)` is a parameter of the
  floating-point operations. Their local arrays have their declared capacities: storing
  more bytes than an array holds is undefined in C and ends the run with a `Fault`.
-/

namespace LCDI2C

/-! ## Constants of `LCD_Driver.h` -/

def LCDI2C_8BIT : Nat := 0x30
def LCDI2C_4BIT : Nat := 0x20
def LCDI2C_2LINE : Nat := 0x28
def LCDI2C_1LINE : Nat := 0x20
def LCDI2C_CURSOR_ON : Nat := 0x0A
def LCDI2C_CURSOR_OFF : Nat := 0x08
def LCDI2C_CURSOR_BLINK_ON : Nat := 0x09
def LCDI2C_CURSOR_BLINK_OFF : Nat := 0x08
def LCDI2C_DISPLAY_ON : Nat := 0x0C
def LCDI2C_DISPLAY_OFF : Nat := 0x08
def LCDI2C_DISPLAY_CLEAR : Nat := 0x01
def LCDI2C_CURSOR_RIGHT : Nat := 0x06
def LCDI2C_CURSOR_LEFT : Nat := 0x04
def LCDI2C_DEV_ADRESS : Nat := 0x3F

/-! ## Data model -/

/-- The struct `LCDI2C_HandleTypeDef` without its embedded `I2C_HandleTypeDef`
(owned by the HAL and never read by the driver). Every field is a `uint8_t`. -/
structure LCDI2C_HandleTypeDef where
  disp_addr : Nat
  disp_bit_mode : Nat
  disp_line : Nat
  cursor : Nat
  cursor_blink : Nat
  cursor_direction : Nat
  _AC : Nat
deriving DecidableEq, Repr

/-- One call into the HAL, as seen from the driver. -/
inductive HalCall where
  /-- The call `HAL_I2C_Master_Transmit(&i2c, DevAddress, pData, Size, HAL_MAX_DELAY)`:
  the 16-bit device address and the `Size` bytes read from `pData`. -/
  | transmit (devAddress : Nat) (data : List Nat)
  /-- The call `HAL_Delay(ms)`. -/
  | delay (ms : Nat)
deriving DecidableEq, Repr

/-- The handle together with the history of the run: `hal` is the ordered trace of
HAL calls, `sent` is the ordered list of bytes with which `_LCDI2C_send_char`
has been called (ghost state, not read by any operation). -/
structure Driver where
  lcd : LCDI2C_HandleTypeDef
  hal : List HalCall
  sent : List Nat
deriving DecidableEq, Repr

/-- Every field of the handle fits its `uint8_t`. -/
def LCDI2C_HandleTypeDef.wellFormed (h : LCDI2C_HandleTypeDef) : Prop :=
  h.disp_addr < 256 ∧ h.disp_bit_mode < 256 ∧ h.disp_line < 256 ∧ h.cursor < 256 ∧
    h.cursor_blink < 256 ∧ h.cursor_direction < 256 ∧ h._AC < 256

instance (h : LCDI2C_HandleTypeDef) : Decidable h.wellFormed := by
  unfold LCDI2C_HandleTypeDef.wellFormed; infer_instance

/-- The second argument of `HAL_I2C_Master_Transmit`, `(lcd_handle->disp_addr) << 1`,
converted to the `uint16_t` parameter `DevAddress`. -/
def devAddress (h : LCDI2C_HandleTypeDef) : Nat := (h.disp_addr <<< 1) % 65536

/-- The bus writes of a trace, in order, as (device address, buffer) pairs. -/
def busWrites : List HalCall → List (Nat × List Nat)
  | [] => []
  | HalCall.transmit a d :: rest => (a, d) :: busWrites rest
  | HalCall.delay _ :: rest => busWrites rest

/-- The delays of a trace, in order. -/
def delays : List HalCall → List Nat
  | [] => []
  | HalCall.transmit _ _ :: rest => delays rest
  | HalCall.delay ms :: rest => ms :: delays rest

/-! ## `_LCDI2C_send_cmd` -/

/-- The local array `arr` of `_LCDI2C_send_cmd`. -/
def _LCDI2C_send_cmd_arr (cmd : Nat) : List Nat :=
  let h_nibble := (cmd &&& 0xF0) % 256
  let l_nibble := ((cmd &&& 0x0F) <<< 4) % 256
  [(h_nibble ||| 0x0C) % 256, (h_nibble ||| 0x08) % 256,
   (l_nibble ||| 0x0C) % 256, (l_nibble ||| 0x08) % 256]

/-- Source: `void _LCDI2C_send_cmd(LCDI2C_HandleTypeDef *lcd_handle, uint8_t cmd)`.
The status returned by the HAL is stored in `stat` and never read. -/
def _LCDI2C_send_cmd (s : Driver) (cmd : Nat) : Driver :=
  let cmd := cmd % 256
  { s with hal := s.hal ++ [HalCall.transmit (devAddress s.lcd) (_LCDI2C_send_cmd_arr cmd)] }

/-! ## Cursor operations -/

/-- Source: `void LCDI2C_Set_Cursor_Dir(LCDI2C_HandleTypeDef* lcd_handle, uint8_t dir)`. -/
def LCDI2C_Set_Cursor_Dir (s : Driver) (dir : Nat) : Driver :=
  let dir := dir % 256
  if dir = LCDI2C_CURSOR_RIGHT ∨ dir = LCDI2C_CURSOR_LEFT then
    _LCDI2C_send_cmd s dir
  else s

/-- Source: `void LCDI2C_Set_Cursor(LCDI2C_HandleTypeDef* lcd_handle, uint8_t row, uint8_t col)`. -/
def LCDI2C_Set_Cursor (s : Driver) (row col : Nat) : Driver :=
  let row := row % 256
  let col := col % 256
  if row < 2 ∧ col < 16 then
    let s1 : Driver := { s with lcd := { s.lcd with _AC := (row * 0x40 + col) % 256 } }
    _LCDI2C_send_cmd s1 (0x80 ||| s1.lcd._AC)
  else s

/-- Source: `void LCDI2C_Clear_Disp(LCDI2C_HandleTypeDef* lcd_handle)`. -/
def LCDI2C_Clear_Disp (s : Driver) : Driver :=
  _LCDI2C_send_cmd s LCDI2C_DISPLAY_CLEAR

/-! ## `_LCDI2C_send_char` -/

/-- The local array `arr` of `_LCDI2C_send_char`. -/
def _LCDI2C_send_char_arr (ch : Nat) : List Nat :=
  let h_nibble := (ch &&& 0xF0) % 256
  let l_nibble := ((ch &&& 0x0F) <<< 4) % 256
  [(h_nibble ||| 0x0D) % 256, (h_nibble ||| 0x09) % 256,
   (l_nibble ||| 0x0D) % 256, (l_nibble ||| 0x09) % 256]

/-- Source: `void _LCDI2C_send_char(LCDI2C_HandleTypeDef* lcd_handle, uint8_t ch)`. -/
def _LCDI2C_send_char (s : Driver) (ch : Nat) : Driver :=
  let ch := ch % 256
  let s0 : Driver := { s with sent := s.sent ++ [ch] }
  let s1 : Driver :=
    if s0.lcd._AC = 0x10 then
      _LCDI2C_send_cmd { s0 with lcd := { s0.lcd with _AC := 0x40 } } 0xC0
    else s0
  if s1.lcd._AC ≤ 0x4F then
    { s1 with
      hal := s1.hal ++ [HalCall.transmit (devAddress s1.lcd) (_LCDI2C_send_char_arr ch)]
      lcd := { s1.lcd with _AC := (s1.lcd._AC + 1) % 256 } }
  else s1

/-! ## Text -/

/-- Source: `void LCDI2C_Send_String (LCDI2C_HandleTypeDef* lcd_handle, char *str)`:
`while (*str) _LCDI2C_send_char (lcd_handle, *str++);` over the bytes of the buffer.
The loop ends at the first zero byte; a list that holds none is read to its end, as a
text whose terminator follows it. -/
def LCDI2C_Send_String (s : Driver) : List Nat → Driver
  | [] => s
  | c :: str => if c = 0 then s else LCDI2C_Send_String (_LCDI2C_send_char s c) str

/-! ## Numbers -/

/-- Decimal digits of `n` as ASCII bytes, most significant first; `fuel` bounds the
number of divisions by ten. -/
def utoa : Nat → Nat → List Nat
  | 0, n => [0x30 + n % 10]
  | fuel + 1, n => if n < 10 then [0x30 + n] else utoa fuel (n / 10) ++ [0x30 + n % 10]

/-- The bytes stored in `buff` by the C library call `sprintf(buff, "%lu", num)` for a
`uint32_t num`: the decimal text of `num` followed by the terminating zero byte. -/
def sprintf_lu (num : Nat) : List Nat :=
  let num := num % 2 ^ 32
  utoa num num ++ [0]

/-- The text that `sprintf(buff, "%lu", num)` renders, without the terminator. -/
def decimalText (num : Nat) : List Nat := utoa num num

/-- The number a sequence of ASCII digits denotes when read in base 10. -/
def decimalValue (text : List Nat) : Nat :=
  text.foldl (fun acc c => acc * 10 + (c - 0x30)) 0

/-- Source: `void LCDI2C_Send_Int(LCDI2C_HandleTypeDef* lcd_handle, uint32_t num)`. -/
def LCDI2C_Send_Int (s : Driver) (num : Nat) : Driver :=
  let buff := sprintf_lu num
  LCDI2C_Send_String s buff

/-- The loop `uint8_t nullIndx = 0; while(buff[nullIndx] != '\0') {nullIndx++;}`:
the final value of `nullIndx` (buffers hold 16 bytes, the counter holds 8 bits). -/
def nullIndx : List Nat → Nat
  | [] => 0
  | c :: buff => if c = 0 then 0 else (nullIndx buff + 1) % 256

/-- The loop `for(int i = 0; i < n; i++){ _LCDI2C_send_char(lcd_handle, ch); }` for an `int`
bound `n` that the body leaves alone: the body runs `n` times, or never if `n <= 0`. -/
def for_send_char (ch : Nat) : Nat → Driver → Driver
  | 0, s => s
  | k + 1, s => for_send_char ch k (_LCDI2C_send_char s ch)

/-- Conversion of an integer to `int8_t`. -/
def toInt8 (x : Int) : Int := (x + 128) % 256 - 128

/-- Source: `void LCDI2C_Send_Int_Spc(LCDI2C_HandleTypeDef* lcd_handle, uint32_t num, int8_t space)`.
In `nullIndx > space` and `space-nullIndx` both operands are promoted to `int`. -/
def LCDI2C_Send_Int_Spc (s : Driver) (num : Nat) (space : Int) : Driver :=
  let space := toInt8 space
  let buff := sprintf_lu num
  let n := nullIndx buff
  if (n : Int) > space then
    for_send_char 0x23 space.toNat s
  else
    let s1 := for_send_char 0x20 (space - (n : Int)).toNat s
    LCDI2C_Send_String s1 buff

/-! ## Initialisation -/

/-- The call `HAL_Delay(ms)`. -/
def HAL_Delay (s : Driver) (ms : Nat) : Driver :=
  { s with hal := s.hal ++ [HalCall.delay ms] }

/-- Source: `void LCDI2C_Init(LCDI2C_HandleTypeDef* lcd_handle)`. -/
def LCDI2C_Init (s : Driver) : Driver :=
  let s := HAL_Delay s 50
  let s := _LCDI2C_send_cmd s LCDI2C_8BIT
  let s := HAL_Delay s 5
  let s := _LCDI2C_send_cmd s LCDI2C_8BIT
  let s := HAL_Delay s 1
  let s := _LCDI2C_send_cmd s LCDI2C_8BIT
  let s := HAL_Delay s 10
  let s := _LCDI2C_send_cmd s s.lcd.disp_bit_mode
  let s := HAL_Delay s 10
  let s := _LCDI2C_send_cmd s s.lcd.disp_line
  let s := HAL_Delay s 2
  let s := _LCDI2C_send_cmd s LCDI2C_DISPLAY_OFF
  let s := HAL_Delay s 2
  let s := _LCDI2C_send_cmd s LCDI2C_DISPLAY_CLEAR
  let s := HAL_Delay s 2
  let s := _LCDI2C_send_cmd s s.lcd.cursor_direction
  let s := HAL_Delay s 2
  _LCDI2C_send_cmd s (LCDI2C_DISPLAY_ON ||| s.lcd.cursor ||| s.lcd.cursor_blink)

/-- A handle for the default device address, configured for 4-bit mode, two lines,
cursor off, blink off, cursor moving right. -/
def sampleHandle (ac : Nat) : LCDI2C_HandleTypeDef :=
  { disp_addr := LCDI2C_DEV_ADRESS, disp_bit_mode := LCDI2C_4BIT, disp_line := LCDI2C_2LINE,
    cursor := LCDI2C_CURSOR_OFF, cursor_blink := LCDI2C_CURSOR_BLINK_OFF,
    cursor_direction := LCDI2C_CURSOR_RIGHT, _AC := ac }

/-- A driver with an empty history whose address counter is `ac`. -/
def sampleDriver (ac : Nat) : Driver := { lcd := sampleHandle ac, hal := [], sent := [] }

/-! ## Floating point -/

/-- The text of a C string: the bytes of the buffer before its first zero byte. -/
def c_str : List Nat → List Nat
  | [] => []
  | c :: rest => if c = 0 then [] else c :: c_str rest

/-- The string left in `dest` by the C library call `strcat(dest, src)`: the text of
`dest`, the text of `src`, the terminating zero byte. -/
def strcat (dest src : List Nat) : List Nat := c_str dest ++ c_str src ++ [0]

/-- The bytes stored by the C library call `sprintf(prec_buff, "%i", prec)` for the
`uint8_t prec`, promoted to a non-negative `int`: its decimal text and the terminator. -/
def sprintf_i (prec : Nat) : List Nat := utoa prec prec ++ [0]

/-- The local array of the floating-point operations that a store runs past the end
of. Such a store is undefined behaviour in C; the model stops there. -/
inductive Fault where
  | prec_buff
  | dest_buff
  | num_buff
deriving DecidableEq, Repr

/-- Storing `bytes`, from index 0 on, in a local `char` array of `cap` elements: defined
only if they fit, otherwise the fault `which`. -/
def store (which : Fault) (cap : Nat) (bytes : List Nat) : Except Fault (List Nat) :=
  if bytes.length ≤ cap then Except.ok bytes else Except.error which

/-- The format string that `LCDI2C_Send_Float` and `LCDI2C_Send_Float_Spc` build in
`dest_buff`, by the same five lines in both functions:
`char prec_buff[2]; sprintf(prec_buff, "%i", prec); strcat(prec_buff, "f");`
`char dest_buff[4] = "%."; strcat(dest_buff, prec_buff);`. -/
def float_format (prec : Nat) : Except Fault (List Nat) := do
  let prec_buff ← store Fault.prec_buff 2 (sprintf_i prec)
  let prec_buff ← store Fault.prec_buff 2 (strcat prec_buff [0x66, 0])
  let dest_buff ← store Fault.dest_buff 4 [0x25, 0x2E, 0, 0]
  store Fault.dest_buff 4 (strcat dest_buff prec_buff)

/-- Source: `void LCDI2C_Send_Float(LCDI2C_HandleTypeDef* lcd_handle, float num, uint8_t prec)`.
The platform formatter `sprintf(num_buff, dest_buff, num)` is the parameter `sprintf_f`:
from the format string and the value it gives the bytes it stores in `num_buff[16]`. -/
def LCDI2C_Send_Float {F : Type} (sprintf_f : List Nat → F → List Nat) (s : Driver)
    (num : F) (prec : Nat) : Except Fault Driver := do
  let prec := prec % 256
  let prec := if prec > 9 then 9 else prec
  let dest_buff ← float_format prec
  let num_buff ← store Fault.num_buff 16 (sprintf_f dest_buff num)
  pure (LCDI2C_Send_String s num_buff)

/-- Source: `void LCDI2C_Send_Float_Spc(LCDI2C_HandleTypeDef* lcd_handle, float num,
uint8_t prec, int8_t space)`, with the platform formatter as the parameter `sprintf_f`. -/
def LCDI2C_Send_Float_Spc {F : Type} (sprintf_f : List Nat → F → List Nat) (s : Driver)
    (num : F) (prec : Nat) (space : Int) : Except Fault Driver := do
  let prec := prec % 256
  let space := toInt8 space
  let prec := if prec > 9 then 9 else prec
  let dest_buff ← float_format prec
  let num_buff ← store Fault.num_buff 16 (sprintf_f dest_buff num)
  let n := nullIndx num_buff
  if (n : Int) > space then
    pure (for_send_char 0x23 space.toNat s)
  else
    let s1 := for_send_char 0x20 (space - (n : Int)).toNat s
    pure (LCDI2C_Send_String s1 num_buff)

/-- The alignment policy in the words of the specification, for a rendered text `t` of
length `L` and a width `w`: `w` characters `#` if `L > w`, otherwise `w - L` spaces
followed by `t`. -/
def alignPolicy (t : List Nat) (w : Int) : List Nat :=
  if (t.length : Int) > w then List.replicate w.toNat 0x23
  else List.replicate (w - (t.length : Int)).toNat 0x20 ++ t

/-- A formatter for examples: whatever the format and the value, it stores `"3.14"`. -/
def sampleFormatter (_fmt : List Nat) (_num : Nat) : List Nat := [0x33, 0x2E, 0x31, 0x34, 0]

/-- The valid values of the address counter between operations: row 0 and the position
one past it, `0x00..0x10`, and row 1 and the position one past it, `0x40..0x50`. -/
def validAC (ac : Nat) : Prop := ac ≤ 0x10 ∨ (0x40 ≤ ac ∧ ac ≤ 0x50)

instance (ac : Nat) : Decidable (validAC ac) := by unfold validAC; infer_instance

/-! ## Frames -/

set_option maxRecDepth 100000 in
theorem send_cmd_arr_eq : ∀ cmd, cmd < 256 → _LCDI2C_send_cmd_arr cmd =
    [((cmd &&& 0xF0) ||| 0x0C) % 256, ((cmd &&& 0xF0) ||| 0x08) % 256,
     (((cmd &&& 0x0F) <<< 4) ||| 0x0C) % 256, (((cmd &&& 0x0F) <<< 4) ||| 0x08) % 256] := by
  decide

set_option maxRecDepth 100000 in
theorem send_char_arr_eq : ∀ ch, ch < 256 → _LCDI2C_send_char_arr ch =
    [(ch &&& 0xF0) ||| 0x0D, (ch &&& 0xF0) ||| 0x09,
     ((ch &&& 0x0F) <<< 4) ||| 0x0D, ((ch &&& 0x0F) <<< 4) ||| 0x09] := by
  decide

/-- C1: for every driver state and every 8-bit `cmd`, `_LCDI2C_send_cmd` appends exactly
one bus write to the trace, whose buffer is the four bytes
`(cmd & 0xF0) | 0x0C`, `(cmd & 0xF0) | 0x08`, `((cmd & 0x0F) << 4) | 0x0C`,
`((cmd & 0x0F) << 4) | 0x08` (each mod 256) in this order, and changes nothing else:
the handle, and with it the address counter, is as before. -/
theorem send_cmd_one_write (s : Driver) (cmd : Nat) (hcmd : cmd < 256) :
    (_LCDI2C_send_cmd s cmd).hal = s.hal ++ [HalCall.transmit (devAddress s.lcd)
        [((cmd &&& 0xF0) ||| 0x0C) % 256, ((cmd &&& 0xF0) ||| 0x08) % 256,
         (((cmd &&& 0x0F) <<< 4) ||| 0x0C) % 256, (((cmd &&& 0x0F) <<< 4) ||| 0x08) % 256]]
      ∧ (_LCDI2C_send_cmd s cmd).lcd = s.lcd
      ∧ (_LCDI2C_send_cmd s cmd).lcd._AC = s.lcd._AC
      ∧ (_LCDI2C_send_cmd s cmd).sent = s.sent := by
  have hm : cmd % 256 = cmd := Nat.mod_eq_of_lt hcmd
  simp [_LCDI2C_send_cmd, hm, send_cmd_arr_eq cmd hcmd]

theorem send_cmd_one_write_witness :
    (0xC5 : Nat) < 256 ∧
    (_LCDI2C_send_cmd (sampleDriver 7) 0xC5).hal
        = [HalCall.transmit 0x7E [0xCC, 0xC8, 0x5C, 0x58]] ∧
    (_LCDI2C_send_cmd (sampleDriver 7) 0xC5).lcd._AC = 7 :=
  ⟨by decide, (send_cmd_one_write (sampleDriver 7) 0xC5 (by decide)).1,
    (send_cmd_one_write (sampleDriver 7) 0xC5 (by decide)).2.2.1⟩

/-- C2: for a handle whose address counter `AC` satisfies `AC <= 0x4F` and `AC != 0x10`,
and an 8-bit `ch`, `_LCDI2C_send_char` appends exactly one bus write to the trace, with
buffer `(ch & 0xF0) | 0x0D`, `(ch & 0xF0) | 0x09`, `((ch & 0x0F) << 4) | 0x0D`,
`((ch & 0x0F) << 4) | 0x09`, and the address counter becomes `AC + 1` (no other field
of the handle changes). -/
theorem send_char_in_range (s : Driver) (ch : Nat) (hch : ch < 256)
    (hle : s.lcd._AC ≤ 0x4F) (hne : s.lcd._AC ≠ 0x10) :
    (_LCDI2C_send_char s ch).hal = s.hal ++ [HalCall.transmit (devAddress s.lcd)
        [(ch &&& 0xF0) ||| 0x0D, (ch &&& 0xF0) ||| 0x09,
         ((ch &&& 0x0F) <<< 4) ||| 0x0D, ((ch &&& 0x0F) <<< 4) ||| 0x09]]
      ∧ (_LCDI2C_send_char s ch).lcd._AC = s.lcd._AC + 1
      ∧ (_LCDI2C_send_char s ch).lcd = { s.lcd with _AC := s.lcd._AC + 1 } := by
  have hm : ch % 256 = ch := Nat.mod_eq_of_lt hch
  have hac : (s.lcd._AC + 1) % 256 = s.lcd._AC + 1 := Nat.mod_eq_of_lt (by omega)
  simp [_LCDI2C_send_char, hm, hne, hle, hac, send_char_arr_eq ch hch, devAddress]

theorem send_char_in_range_witness :
    (0x41 : Nat) < 256 ∧ (sampleDriver 3).lcd._AC ≤ 0x4F ∧ (sampleDriver 3).lcd._AC ≠ 0x10 ∧
    (_LCDI2C_send_char (sampleDriver 3) 0x41).hal
        = [HalCall.transmit 0x7E [0x4D, 0x49, 0x1D, 0x19]] ∧
    (_LCDI2C_send_char (sampleDriver 3) 0x41).lcd._AC = 4 :=
  ⟨by decide, by decide, by decide,
    (send_char_in_range (sampleDriver 3) 0x41 (by decide) (by decide) (by decide)).1,
    (send_char_in_range (sampleDriver 3) 0x41 (by decide) (by decide) (by decide)).2.1⟩

/-- C3: for every driver state and every `row < 2`, `col < 16`, `LCDI2C_Set_Cursor` sets
the address counter to `row * 0x40 + col` (leaving the other fields alone) and appends
exactly one bus write, the buffer that `_LCDI2C_send_cmd` builds for the byte
`0x80 | (row * 0x40 + col)`; `LCDI2C_Set_Cursor(h, 1, 5)` sets the address counter to
`0x45` and sends the frame of command `0xC5`, the bytes `CC C8 5C 58`. -/
theorem set_cursor_accepted (s : Driver) (row col : Nat) (hrow : row < 2) (hcol : col < 16) :
    ((LCDI2C_Set_Cursor s row col).lcd = { s.lcd with _AC := row * 0x40 + col }
      ∧ (LCDI2C_Set_Cursor s row col).lcd._AC = row * 0x40 + col
      ∧ (LCDI2C_Set_Cursor s row col).hal = s.hal ++ [HalCall.transmit (devAddress s.lcd)
          (_LCDI2C_send_cmd_arr (0x80 ||| (row * 0x40 + col)))]
      ∧ (LCDI2C_Set_Cursor s row col).sent = s.sent)
    ∧ ((LCDI2C_Set_Cursor s 1 5).lcd._AC = 0x45
      ∧ (0x80 ||| 0x45 : Nat) = 0xC5
      ∧ (LCDI2C_Set_Cursor s 1 5).hal = s.hal ++ [HalCall.transmit (devAddress s.lcd)
          (_LCDI2C_send_cmd_arr 0xC5)]
      ∧ _LCDI2C_send_cmd_arr 0xC5 = [0xCC, 0xC8, 0x5C, 0x58]) := by
  have hr : row % 256 = row := Nat.mod_eq_of_lt (by omega)
  have hc : col % 256 = col := Nat.mod_eq_of_lt (by omega)
  have hac : (row * 0x40 + col) % 256 = row * 0x40 + col := Nat.mod_eq_of_lt (by omega)
  have hb : ∀ a, a < 80 → (0x80 ||| a) % 256 = 0x80 ||| a := by decide
  have hcmd : (0x80 ||| (row * 0x40 + col)) % 256 = 0x80 ||| (row * 0x40 + col) :=
    hb _ (by omega)
  refine ⟨?_, ?_⟩
  · simp [LCDI2C_Set_Cursor, _LCDI2C_send_cmd, hr, hc, hrow, hcol, hac, hcmd, devAddress]
  · refine ⟨?_, by decide, ?_, by decide⟩ <;>
      simp [LCDI2C_Set_Cursor, _LCDI2C_send_cmd, devAddress]

theorem set_cursor_accepted_witness :
    (1 : Nat) < 2 ∧ (5 : Nat) < 16 ∧
    (LCDI2C_Set_Cursor (sampleDriver 0) 1 5).lcd._AC = 1 * 0x40 + 5 ∧
    (LCDI2C_Set_Cursor (sampleDriver 0) 1 5).hal
      = (sampleDriver 0).hal ++ [HalCall.transmit (devAddress (sampleDriver 0).lcd)
          (_LCDI2C_send_cmd_arr (0x80 ||| (1 * 0x40 + 5)))] :=
  ⟨by decide, by decide,
    (set_cursor_accepted (sampleDriver 0) 1 5 (by decide) (by decide)).1.2.1,
    (set_cursor_accepted (sampleDriver 0) 1 5 (by decide) (by decide)).1.2.2.1⟩

/-- C4: for every driver state and every 8-bit `row`, `col` with `row >= 2` or
`col >= 16`, `LCDI2C_Set_Cursor` returns the state it was given: no bus write, the
address counter and every other field of the handle as before. -/
theorem set_cursor_rejected (s : Driver) (row col : Nat) (hrow : row < 256) (hcol : col < 256)
    (hbad : 2 ≤ row ∨ 16 ≤ col) :
    LCDI2C_Set_Cursor s row col = s
      ∧ (LCDI2C_Set_Cursor s row col).hal = s.hal
      ∧ (LCDI2C_Set_Cursor s row col).lcd = s.lcd := by
  have hr : row % 256 = row := Nat.mod_eq_of_lt hrow
  have hc : col % 256 = col := Nat.mod_eq_of_lt hcol
  have hno : ¬ (row < 2 ∧ col < 16) := by omega
  simp [LCDI2C_Set_Cursor, hr, hc, hno]

theorem set_cursor_rejected_witness :
    (2 : Nat) < 256 ∧ (3 : Nat) < 256 ∧ ((2 : Nat) ≤ 2 ∨ (16 : Nat) ≤ 3) ∧
    LCDI2C_Set_Cursor (sampleDriver 9) 2 3 = sampleDriver 9 :=
  ⟨by decide, by decide, by decide,
    (set_cursor_rejected (sampleDriver 9) 2 3 (by decide) (by decide) (by decide)).1⟩

/-- C5: for a handle whose address counter is `0x10` and an 8-bit `ch`,
`_LCDI2C_send_char` appends exactly two bus writes in this order: the command frame of
`0xC0 = 0x80 | 0x40` (set DDRAM address `0x40`), bytes `CC C8 0C 08`, then the character
frame of `ch`; the address counter ends at `0x41 = 0x40 + 1`, so the character counts as
written at `0x40`, not at `0x10`. -/
theorem send_char_row_wrap (s : Driver) (ch : Nat) (hch : ch < 256)
    (hac : s.lcd._AC = 0x10) :
    (_LCDI2C_send_char s ch).hal = s.hal ++
        [HalCall.transmit (devAddress s.lcd) (_LCDI2C_send_cmd_arr 0xC0),
         HalCall.transmit (devAddress s.lcd) (_LCDI2C_send_char_arr ch)]
      ∧ _LCDI2C_send_cmd_arr 0xC0 = [0xCC, 0xC8, 0x0C, 0x08]
      ∧ (0x80 ||| 0x40 : Nat) = 0xC0
      ∧ _LCDI2C_send_char_arr ch = [(ch &&& 0xF0) ||| 0x0D, (ch &&& 0xF0) ||| 0x09,
          ((ch &&& 0x0F) <<< 4) ||| 0x0D, ((ch &&& 0x0F) <<< 4) ||| 0x09]
      ∧ (_LCDI2C_send_char s ch).lcd._AC = 0x41
      ∧ (_LCDI2C_send_char s ch).lcd = { s.lcd with _AC := 0x40 + 1 } := by
  have hm : ch % 256 = ch := Nat.mod_eq_of_lt hch
  refine ⟨?_, by decide, by decide, send_char_arr_eq ch hch, ?_, ?_⟩ <;>
    simp [_LCDI2C_send_char, _LCDI2C_send_cmd, hm, hac, devAddress]

theorem send_char_row_wrap_witness :
    (0x51 : Nat) < 256 ∧ (sampleDriver 0x10).lcd._AC = 0x10 ∧
    (_LCDI2C_send_char (sampleDriver 0x10) 0x51).hal =
        [HalCall.transmit 0x7E [0xCC, 0xC8, 0x0C, 0x08],
         HalCall.transmit 0x7E [0x5D, 0x59, 0x1D, 0x19]] ∧
    (_LCDI2C_send_char (sampleDriver 0x10) 0x51).lcd._AC = 0x41 :=
  ⟨by decide, by decide,
    (send_char_row_wrap (sampleDriver 0x10) 0x51 (by decide) (by decide)).1,
    (send_char_row_wrap (sampleDriver 0x10) 0x51 (by decide) (by decide)).2.2.2.2.1⟩

/-- C6: for a handle whose address counter is greater than `0x4F` and an 8-bit `ch`,
`_LCDI2C_send_char` drops the character: the trace of HAL calls is as before (no bus
write) and so is the handle, the address counter included; only the record of
submitted characters grows. -/
theorem send_char_dropped (s : Driver) (ch : Nat) (hch : ch < 256) (hac : 0x4F < s.lcd._AC) :
    (_LCDI2C_send_char s ch).hal = s.hal
      ∧ (_LCDI2C_send_char s ch).lcd._AC = s.lcd._AC
      ∧ (_LCDI2C_send_char s ch).lcd = s.lcd
      ∧ _LCDI2C_send_char s ch = { s with sent := s.sent ++ [ch] } := by
  have hm : ch % 256 = ch := Nat.mod_eq_of_lt hch
  have hne : s.lcd._AC ≠ 0x10 := by omega
  have hgt : ¬ s.lcd._AC ≤ 0x4F := by omega
  simp [_LCDI2C_send_char, hm, hne, hgt]

theorem send_char_dropped_witness :
    (0x41 : Nat) < 256 ∧ 0x4F < (sampleDriver 0x50).lcd._AC ∧
    (_LCDI2C_send_char (sampleDriver 0x50) 0x41).hal = (sampleDriver 0x50).hal ∧
    (_LCDI2C_send_char (sampleDriver 0x50) 0x41).lcd._AC = (sampleDriver 0x50).lcd._AC :=
  ⟨by decide, by decide,
    (send_char_dropped (sampleDriver 0x50) 0x41 (by decide) (by decide)).1,
    (send_char_dropped (sampleDriver 0x50) 0x41 (by decide) (by decide)).2.1⟩

/-- C7: for every driver state and every 8-bit `dir`, `LCDI2C_Set_Cursor_Dir` adds a bus
write if and only if `dir` is `0x06` or `0x04`; then the trace grows by exactly one
write, the command frame of `dir` itself; otherwise the state is returned as given
(so for `dir = 0x99`); in both cases the handle is unchanged. -/
theorem set_cursor_dir_gate (s : Driver) (dir : Nat) (hdir : dir < 256) :
    ((LCDI2C_Set_Cursor_Dir s dir).hal ≠ s.hal ↔ (dir = 0x06 ∨ dir = 0x04))
      ∧ ((dir = 0x06 ∨ dir = 0x04) → (LCDI2C_Set_Cursor_Dir s dir).hal
          = s.hal ++ [HalCall.transmit (devAddress s.lcd) (_LCDI2C_send_cmd_arr dir)])
      ∧ (¬ (dir = 0x06 ∨ dir = 0x04) → LCDI2C_Set_Cursor_Dir s dir = s)
      ∧ (LCDI2C_Set_Cursor_Dir s dir).lcd = s.lcd
      ∧ (LCDI2C_Set_Cursor_Dir s dir).sent = s.sent
      ∧ LCDI2C_Set_Cursor_Dir s 0x99 = s
      ∧ (LCDI2C_Set_Cursor_Dir s 0x06).hal
          = s.hal ++ [HalCall.transmit (devAddress s.lcd) [0x0C, 0x08, 0x6C, 0x68]] := by
  have hm : dir % 256 = dir := Nat.mod_eq_of_lt hdir
  have h99 : LCDI2C_Set_Cursor_Dir s 0x99 = s := by
    simp [LCDI2C_Set_Cursor_Dir, LCDI2C_CURSOR_RIGHT, LCDI2C_CURSOR_LEFT]
  have h06 : (LCDI2C_Set_Cursor_Dir s 0x06).hal
      = s.hal ++ [HalCall.transmit (devAddress s.lcd) [0x0C, 0x08, 0x6C, 0x68]] := by
    have : _LCDI2C_send_cmd_arr 6 = [0x0C, 0x08, 0x6C, 0x68] := by decide
    simp [LCDI2C_Set_Cursor_Dir, LCDI2C_CURSOR_RIGHT, _LCDI2C_send_cmd, this]
  by_cases h : dir = 0x06 ∨ dir = 0x04
  · have h2 : dir = LCDI2C_CURSOR_RIGHT ∨ dir = LCDI2C_CURSOR_LEFT := h
    have hd : LCDI2C_Set_Cursor_Dir s dir = _LCDI2C_send_cmd s dir := by
      simp [LCDI2C_Set_Cursor_Dir, hm, h2]
    have hhal : (LCDI2C_Set_Cursor_Dir s dir).hal
        = s.hal ++ [HalCall.transmit (devAddress s.lcd) (_LCDI2C_send_cmd_arr dir)] := by
      rw [hd]; simp [_LCDI2C_send_cmd, hm]
    refine ⟨⟨fun _ => h, fun _ => ?_⟩, fun _ => hhal, fun hn => absurd h hn, ?_, ?_, h99, h06⟩
    · rw [hhal]; simp
    · rw [hd]; rfl
    · rw [hd]; rfl
  · have h2 : ¬ (dir = LCDI2C_CURSOR_RIGHT ∨ dir = LCDI2C_CURSOR_LEFT) := h
    have hd : LCDI2C_Set_Cursor_Dir s dir = s := by
      simp [LCDI2C_Set_Cursor_Dir, hm, h2]
    refine ⟨⟨fun hne => absurd (by rw [hd]) hne, fun h1 => absurd h1 h⟩,
      fun h1 => absurd h1 h, fun _ => hd, by rw [hd], by rw [hd], h99, h06⟩

theorem set_cursor_dir_gate_witness :
    (0x04 : Nat) < 256 ∧
    (LCDI2C_Set_Cursor_Dir (sampleDriver 0) 0x04).hal
      = [HalCall.transmit 0x7E [0x0C, 0x08, 0x4C, 0x48]] :=
  ⟨by decide,
    ((set_cursor_dir_gate (sampleDriver 0) 0x04 (by decide)).2.1 (by decide)).trans (by decide)⟩

/-! ## Text and numbers -/

theorem send_string_terminator (text rest : List Nat) :
    ∀ s : Driver, (∀ c ∈ text, c ≠ 0) →
      LCDI2C_Send_String s (text ++ 0 :: rest) = text.foldl _LCDI2C_send_char s := by
  induction text with
  | nil => intro s _; simp [LCDI2C_Send_String]
  | cons c text ih =>
    intro s h
    have hc : c ≠ 0 := h c (by simp)
    have ht : ∀ d ∈ text, d ≠ 0 := fun d hd => h d (by simp [hd])
    simp [LCDI2C_Send_String, hc, ih _ ht]

theorem send_string_fold (text : List Nat) :
    ∀ s : Driver, (∀ c ∈ text, c ≠ 0) →
      LCDI2C_Send_String s text = text.foldl _LCDI2C_send_char s := by
  induction text with
  | nil => intro s _; simp [LCDI2C_Send_String]
  | cons c text ih =>
    intro s h
    have hc : c ≠ 0 := h c (by simp)
    have ht : ∀ d ∈ text, d ≠ 0 := fun d hd => h d (by simp [hd])
    simp [LCDI2C_Send_String, hc, ih _ ht]

theorem send_char_sent (s : Driver) (ch : Nat) :
    (_LCDI2C_send_char s ch).sent = s.sent ++ [ch % 256] := by
  unfold _LCDI2C_send_char _LCDI2C_send_cmd
  by_cases h1 : s.lcd._AC = 0x10
  · simp [h1]
  · by_cases h2 : s.lcd._AC ≤ 0x4F <;> simp [h1, h2]

theorem fold_send_char_sent (text : List Nat) :
    ∀ s : Driver, (∀ c ∈ text, c < 256) →
      (text.foldl _LCDI2C_send_char s).sent = s.sent ++ text := by
  induction text with
  | nil => intro s _; simp
  | cons c text ih =>
    intro s h
    have hc : c % 256 = c := Nat.mod_eq_of_lt (h c (by simp))
    have ht : ∀ d ∈ text, d < 256 := fun d hd => h d (by simp [hd])
    simp [ih _ ht, send_char_sent, hc]

theorem for_send_char_fold (ch : Nat) (k : Nat) :
    ∀ s : Driver, for_send_char ch k s = (List.replicate k ch).foldl _LCDI2C_send_char s := by
  induction k with
  | zero => intro s; simp [for_send_char]
  | succ k ih => intro s; simp [for_send_char, ih, List.replicate_succ]

theorem nullIndx_terminated (text rest : List Nat) (hz : ∀ c ∈ text, c ≠ 0)
    (hlen : text.length < 256) : nullIndx (text ++ 0 :: rest) = text.length := by
  induction text with
  | nil => simp [nullIndx]
  | cons c text ih =>
    have hc : c ≠ 0 := hz c (by simp)
    have ht : ∀ d ∈ text, d ≠ 0 := fun d hd => hz d (by simp [hd])
    have hl : text.length < 256 := by simp at hlen; omega
    rw [List.cons_append, nullIndx, if_neg hc, ih ht hl]
    exact Nat.mod_eq_of_lt (by simpa using hlen)

theorem utoa_digits : ∀ fuel n, ∀ c ∈ utoa fuel n, 0x30 ≤ c ∧ c ≤ 0x39 := by
  intro fuel
  induction fuel with
  | zero => intro n c hc; simp [utoa] at hc; omega
  | succ fuel ih =>
    intro n c hc
    unfold utoa at hc
    split at hc
    · simp at hc; omega
    · rcases List.mem_append.1 hc with h | h
      · exact ih _ c h
      · simp at h; omega

theorem decimalValue_snoc (text : List Nat) (c : Nat) :
    decimalValue (text ++ [c]) = decimalValue text * 10 + (c - 0x30) := by
  simp [decimalValue, List.foldl_append]

theorem utoa_value : ∀ fuel n, n ≤ fuel → decimalValue (utoa fuel n) = n := by
  intro fuel
  induction fuel with
  | zero => intro n h; have : n = 0 := by omega
            subst this; simp [utoa, decimalValue]
  | succ fuel ih =>
    intro n h
    unfold utoa
    split
    · simp [decimalValue]
    · rw [decimalValue_snoc, ih (n / 10) (by omega)]; omega

theorem utoa_length : ∀ fuel n k, n ≤ fuel → n < 10 ^ (k + 1) →
    1 ≤ (utoa fuel n).length ∧ (utoa fuel n).length ≤ k + 1 := by
  intro fuel
  induction fuel with
  | zero => intro n k _ _; simp [utoa]
  | succ fuel ih =>
    intro n k h hk
    unfold utoa
    split
    · simp
    · rename_i h10
      cases k with
      | zero => simp at hk; omega
      | succ k =>
        have hp : 10 ^ (k + 1 + 1) = 10 * 10 ^ (k + 1) := by rw [pow_succ]; ring
        have := ih (n / 10) k (by omega) (by omega)
        simp; omega

theorem utoa_ne_nil (fuel n : Nat) : utoa fuel n ≠ [] := by
  cases fuel with
  | zero => simp [utoa]
  | succ fuel => unfold utoa; split <;> simp

theorem utoa_no_leading_zero : ∀ fuel n, n ≤ fuel → 1 ≤ n →
    ∀ rest, utoa fuel n ≠ 0x30 :: rest := by
  intro fuel
  induction fuel with
  | zero => intro n h h1; omega
  | succ fuel ih =>
    intro n h h1 rest
    unfold utoa
    split
    · intro he; simp at he; omega
    · intro he
      cases hu : utoa fuel (n / 10) with
      | nil => exact utoa_ne_nil _ _ hu
      | cons d r =>
        rw [hu] at he
        simp at he
        exact ih (n / 10) (by omega) (by omega) r (by rw [hu, he.1])

theorem sprintf_lu_eq (v : Nat) (hv : v < 2 ^ 32) : sprintf_lu v = decimalText v ++ [0] := by
  have hm : v % 2 ^ 32 = v := Nat.mod_eq_of_lt hv
  simp only [sprintf_lu, decimalText, hm]

theorem decimalText_digits (v : Nat) : ∀ c ∈ decimalText v, 0x30 ≤ c ∧ c ≤ 0x39 :=
  utoa_digits v v

theorem decimalText_nonzero (v : Nat) : ∀ c ∈ decimalText v, c ≠ 0 := by
  intro c hc; have := decimalText_digits v c hc; omega

theorem decimalText_bytes (v : Nat) : ∀ c ∈ decimalText v, c < 256 := by
  intro c hc; have := decimalText_digits v c hc; omega

theorem decimalText_length (v : Nat) (hv : v < 2 ^ 32) :
    1 ≤ (decimalText v).length ∧ (decimalText v).length ≤ 10 := by
  have h : v < 10 ^ (9 + 1) := by norm_num at hv ⊢; omega
  exact utoa_length v v 9 (Nat.le_refl v) h

theorem send_int_spc_unfold (s : Driver) (v : Nat) (w : Int) (hv : v < 2 ^ 32)
    (hlo : -128 ≤ w) (hhi : w ≤ 127) :
    LCDI2C_Send_Int_Spc s v w =
      if ((decimalText v).length : Int) > w then for_send_char 0x23 w.toNat s
      else (List.replicate (w - ((decimalText v).length : Int)).toNat 0x20
              ++ decimalText v).foldl _LCDI2C_send_char s := by
  have h8 : toInt8 w = w := by unfold toInt8; omega
  have hlen := decimalText_length v hv
  have hn : nullIndx (sprintf_lu v) = (decimalText v).length := by
    rw [sprintf_lu_eq v hv]
    exact nullIndx_terminated _ [] (decimalText_nonzero v) (by omega)
  have hstr : ∀ s1 : Driver, LCDI2C_Send_String s1 (sprintf_lu v)
      = (decimalText v).foldl _LCDI2C_send_char s1 := by
    intro s1
    rw [sprintf_lu_eq v hv]
    exact send_string_terminator _ [] s1 (decimalText_nonzero v)
  unfold LCDI2C_Send_Int_Spc
  simp only [h8, hn, hstr, for_send_char_fold, List.foldl_append]

/-- C8: for every driver state and every unsigned 32-bit `v`, `LCDI2C_Send_Int` has the
effect of `LCDI2C_Send_String` on the decimal text of `v` (the whole state agrees: bus
writes, handle and address counter), with or without its terminating zero byte; that
text consists of the digits `'0'..'9'` only (so no sign), starts with `'0'` only if
`v = 0`, in which case it is `"0"`, has between 1 and 10 characters, and read back in
base 10 it denotes `v`; for `v = 1234` it is `"1234"`. -/
theorem send_int_decimal (s : Driver) (v : Nat) (hv : v < 2 ^ 32) :
    sprintf_lu v = decimalText v ++ [0]
      ∧ LCDI2C_Send_Int s v = LCDI2C_Send_String s (decimalText v)
      ∧ LCDI2C_Send_Int s v = LCDI2C_Send_String s (decimalText v ++ [0])
      ∧ (∀ c ∈ decimalText v, 0x30 ≤ c ∧ c ≤ 0x39)
      ∧ (∀ rest, decimalText v = 0x30 :: rest → v = 0)
      ∧ (v = 0 → decimalText v = [0x30])
      ∧ 1 ≤ (decimalText v).length ∧ (decimalText v).length ≤ 10
      ∧ decimalValue (decimalText v) = v
      ∧ decimalText 1234 = [0x31, 0x32, 0x33, 0x34]
      ∧ LCDI2C_Send_Int s 1234 = LCDI2C_Send_String s [0x31, 0x32, 0x33, 0x34] := by
  have hbuf := sprintf_lu_eq v hv
  have hz := decimalText_nonzero v
  have h1 : LCDI2C_Send_Int s v = LCDI2C_Send_String s (decimalText v ++ [0]) := by
    simp only [LCDI2C_Send_Int, hbuf]
  have h2 : LCDI2C_Send_String s (decimalText v ++ [0])
      = LCDI2C_Send_String s (decimalText v) := by
    rw [send_string_terminator _ [] s hz, send_string_fold _ s hz]
  have h1234 : decimalText 1234 = [0x31, 0x32, 0x33, 0x34] := by decide
  refine ⟨hbuf, h1.trans h2, h1, decimalText_digits v, ?_, ?_,
    (decimalText_length v hv).1, (decimalText_length v hv).2,
    utoa_value v v (Nat.le_refl v), h1234, ?_⟩
  · intro rest he
    by_contra hne
    exact utoa_no_leading_zero v v (Nat.le_refl v) (by omega) rest he
  · intro h0; subst h0; decide
  · have hb : sprintf_lu 1234 = [0x31, 0x32, 0x33, 0x34] ++ [0] := by decide
    have hnz : ∀ c ∈ [0x31, 0x32, 0x33, 0x34], c ≠ 0 := by decide
    simp only [LCDI2C_Send_Int, hb]
    rw [send_string_terminator _ [] s hnz, send_string_fold _ s hnz]

theorem send_int_decimal_witness :
    (4294967295 : Nat) < 2 ^ 32 ∧
    LCDI2C_Send_Int (sampleDriver 0) 4294967295
      = LCDI2C_Send_String (sampleDriver 0) (decimalText 4294967295) ∧
    decimalText 4294967295
      = [0x34, 0x32, 0x39, 0x34, 0x39, 0x36, 0x37, 0x32, 0x39, 0x35] ∧
    decimalValue (decimalText 4294967295) = 4294967295 :=
  ⟨by decide, (send_int_decimal (sampleDriver 0) 4294967295 (by decide)).2.1, by decide,
    (send_int_decimal (sampleDriver 0) 4294967295 (by decide)).2.2.2.2.2.2.2.2.1⟩

/-- C9: for every unsigned 32-bit `v` with `d` decimal digits and every width `w` with
`1 <= w <= 127` and `d <= w`, `LCDI2C_Send_Int_Spc` calls `_LCDI2C_send_char` with exactly
`w - d` spaces followed by the `d` digits of `v`, in this order and with nothing else, so
the submitted text has length `w` and the number is right-aligned; its effect on the
state is that of submitting these characters one by one; `(v, w) = (5, 3)` submits two
spaces and `'5'`. -/
theorem send_int_spc_right_aligned (s : Driver) (v : Nat) (w : Int) (hv : v < 2 ^ 32)
    (hw1 : 1 ≤ w) (hw2 : w ≤ 127) (hd : ((decimalText v).length : Int) ≤ w) :
    (LCDI2C_Send_Int_Spc s v w).sent = s.sent ++
        (List.replicate (w.toNat - (decimalText v).length) 0x20 ++ decimalText v)
      ∧ (List.replicate (w.toNat - (decimalText v).length) 0x20 ++ decimalText v).length
          = w.toNat
      ∧ ((List.replicate (w.toNat - (decimalText v).length) 0x20
          ++ decimalText v).length : Int) = w
      ∧ LCDI2C_Send_Int_Spc s v w =
          (List.replicate (w.toNat - (decimalText v).length) 0x20
            ++ decimalText v).foldl _LCDI2C_send_char s
      ∧ (LCDI2C_Send_Int_Spc s 5 3).sent = s.sent ++ [0x20, 0x20, 0x35] := by
  have hk : (w - ((decimalText v).length : Int)).toNat = w.toNat - (decimalText v).length := by
    omega
  have hno : ¬ ((decimalText v).length : Int) > w := by omega
  have hrun : LCDI2C_Send_Int_Spc s v w =
      (List.replicate (w.toNat - (decimalText v).length) 0x20
        ++ decimalText v).foldl _LCDI2C_send_char s := by
    rw [send_int_spc_unfold s v w hv (by omega) hw2, if_neg hno, hk]
  have hbytes : ∀ c ∈ List.replicate (w.toNat - (decimalText v).length) 0x20 ++ decimalText v,
      c < 256 := by
    intro c hc
    rcases List.mem_append.1 hc with h | h
    · rw [List.eq_of_mem_replicate h]; decide
    · exact decimalText_bytes v c h
  have hlen : (List.replicate (w.toNat - (decimalText v).length) 0x20
      ++ decimalText v).length = w.toNat := by
    simp only [List.length_append, List.length_replicate]; omega
  have h53 : (LCDI2C_Send_Int_Spc s 5 3).sent = s.sent ++ [0x20, 0x20, 0x35] := by
    have ht : decimalText 5 = [0x35] := by decide
    rw [send_int_spc_unfold s 5 3 (by decide) (by decide) (by decide), ht]
    exact fold_send_char_sent [0x20, 0x20, 0x35] s (by decide)
  refine ⟨?_, hlen, ?_, hrun, h53⟩
  · rw [hrun]; exact fold_send_char_sent _ s hbytes
  · rw [hlen]; omega

theorem send_int_spc_right_aligned_witness :
    (42 : Nat) < 2 ^ 32 ∧ (1 : Int) ≤ 4 ∧ (4 : Int) ≤ 127 ∧
    (((decimalText 42).length : Nat) : Int) ≤ 4 ∧
    (LCDI2C_Send_Int_Spc (sampleDriver 0) 42 4).sent = [0x20, 0x20, 0x34, 0x32] :=
  ⟨by decide, by decide, by decide, by decide,
    (send_int_spc_right_aligned (sampleDriver 0) 42 4 (by decide) (by decide) (by decide)
      (by decide)).1.trans (by decide)⟩

/-- C10: for every unsigned 32-bit `v` with `d` decimal digits and every signed 8-bit
width `w` with `d > w`, `LCDI2C_Send_Int_Spc` takes the overflow branch: it calls
`_LCDI2C_send_char` with `'#'` exactly `w` times when `w >= 1` and with nothing else (no
digit, no space); `(12345, 3)` submits `"###"`; for every `w <= 0` the condition `d > w`
holds by itself and the state is returned as given: nothing submitted, no bus write, the
address counter unchanged. -/
theorem send_int_spc_overflow (s : Driver) (v : Nat) (w : Int) (hv : v < 2 ^ 32)
    (hlo : -128 ≤ w) (hhi : w ≤ 127) :
    (((decimalText v).length : Int) > w →
        LCDI2C_Send_Int_Spc s v w = for_send_char 0x23 w.toNat s
        ∧ LCDI2C_Send_Int_Spc s v w = (List.replicate w.toNat 0x23).foldl _LCDI2C_send_char s
        ∧ (LCDI2C_Send_Int_Spc s v w).sent = s.sent ++ List.replicate w.toNat 0x23
        ∧ (1 ≤ w → ((List.replicate w.toNat 0x23).length : Int) = w))
      ∧ (w ≤ 0 → ((decimalText v).length : Int) > w
          ∧ LCDI2C_Send_Int_Spc s v w = s
          ∧ (LCDI2C_Send_Int_Spc s v w).hal = s.hal
          ∧ (LCDI2C_Send_Int_Spc s v w).lcd._AC = s.lcd._AC)
      ∧ (LCDI2C_Send_Int_Spc s 12345 3).sent = s.sent ++ [0x23, 0x23, 0x23] := by
  have hlen := decimalText_length v hv
  have hover : ((decimalText v).length : Int) > w →
      LCDI2C_Send_Int_Spc s v w = for_send_char 0x23 w.toNat s := by
    intro h
    rw [send_int_spc_unfold s v w hv hlo hhi, if_pos h]
  have hsharp : ∀ c ∈ List.replicate w.toNat 0x23, c < 256 := by
    intro c hc; rw [List.eq_of_mem_replicate hc]; decide
  refine ⟨fun h => ⟨hover h, ?_, ?_, ?_⟩, fun h0 => ?_, ?_⟩
  · rw [hover h, for_send_char_fold]
  · rw [hover h, for_send_char_fold]; exact fold_send_char_sent _ s hsharp
  · intro h1; simp only [List.length_replicate]; omega
  · have hgt : ((decimalText v).length : Int) > w := by omega
    have hz : w.toNat = 0 := by omega
    have hs : LCDI2C_Send_Int_Spc s v w = s := by
      rw [hover hgt, hz]; rfl
    exact ⟨hgt, hs, by rw [hs], by rw [hs]⟩
  · have ht : ((decimalText 12345).length : Int) > 3 := by decide
    rw [send_int_spc_unfold s 12345 3 (by decide) (by decide) (by decide), if_pos ht,
      for_send_char_fold]
    exact fold_send_char_sent [0x23, 0x23, 0x23] s (by decide)

theorem send_int_spc_overflow_witness :
    (12345 : Nat) < 2 ^ 32 ∧ (-128 : Int) ≤ 3 ∧ (3 : Int) ≤ 127 ∧
    (LCDI2C_Send_Int_Spc (sampleDriver 0) 12345 3).sent = [0x23, 0x23, 0x23] ∧
    LCDI2C_Send_Int_Spc (sampleDriver 5) 7 (-2) = sampleDriver 5 :=
  ⟨by decide, by decide, by decide,
    ((send_int_spc_overflow (sampleDriver 0) 12345 3 (by decide) (by decide)
      (by decide)).1 (by decide)).2.2.1.trans (by decide),
    ((send_int_spc_overflow (sampleDriver 5) 7 (-2) (by decide) (by decide)
      (by decide)).2.1 (by decide)).2.1⟩

/-! ## Initialisation and the address counter -/

theorem busWrites_append (a b : List HalCall) :
    busWrites (a ++ b) = busWrites a ++ busWrites b := by
  induction a with
  | nil => rfl
  | cons x a ih => cases x <;> simp [busWrites, ih]

theorem delays_append (a b : List HalCall) : delays (a ++ b) = delays a ++ delays b := by
  induction a with
  | nil => rfl
  | cons x a ih => cases x <;> simp [delays, ih]

theorem init_trace (s : Driver) :
    LCDI2C_Init s = { s with hal := s.hal ++
      [HalCall.delay 50,
       HalCall.transmit (devAddress s.lcd) (_LCDI2C_send_cmd_arr 0x30),
       HalCall.delay 5,
       HalCall.transmit (devAddress s.lcd) (_LCDI2C_send_cmd_arr 0x30),
       HalCall.delay 1,
       HalCall.transmit (devAddress s.lcd) (_LCDI2C_send_cmd_arr 0x30),
       HalCall.delay 10,
       HalCall.transmit (devAddress s.lcd) (_LCDI2C_send_cmd_arr (s.lcd.disp_bit_mode % 256)),
       HalCall.delay 10,
       HalCall.transmit (devAddress s.lcd) (_LCDI2C_send_cmd_arr (s.lcd.disp_line % 256)),
       HalCall.delay 2,
       HalCall.transmit (devAddress s.lcd) (_LCDI2C_send_cmd_arr 0x08),
       HalCall.delay 2,
       HalCall.transmit (devAddress s.lcd) (_LCDI2C_send_cmd_arr 0x01),
       HalCall.delay 2,
       HalCall.transmit (devAddress s.lcd) (_LCDI2C_send_cmd_arr (s.lcd.cursor_direction % 256)),
       HalCall.delay 2,
       HalCall.transmit (devAddress s.lcd)
         (_LCDI2C_send_cmd_arr ((0x0C ||| s.lcd.cursor ||| s.lcd.cursor_blink) % 256))] } := by
  simp [LCDI2C_Init, HAL_Delay, _LCDI2C_send_cmd, LCDI2C_8BIT, LCDI2C_DISPLAY_OFF,
    LCDI2C_DISPLAY_CLEAR, LCDI2C_DISPLAY_ON]

theorem or_byte (a b : Nat) (ha : a < 256) (hb : b < 256) : (a ||| b) % 256 = a ||| b :=
  Nat.mod_eq_of_lt (Nat.or_lt_two_pow (n := 8) ha hb)

/-- C11: for every handle configuration (every field an 8-bit value), `LCDI2C_Init` adds
exactly nine bus writes to the trace, in this order the command frames of `0x30`, `0x30`,
`0x30`, `disp_bit_mode`, `disp_line`, `0x08`, `0x01`, `cursor_direction` and
`0x0C | cursor | cursor_blink`; for `cursor` in `{0x0A, 0x08}` and `cursor_blink` in
`{0x09, 0x08}` the last byte is `0x0C` plus bit 1 exactly when `cursor = 0x0A` and bit 0
exactly when `cursor_blink = 0x09`. -/
theorem init_bus_writes (s : Driver) (hwf : s.lcd.wellFormed) :
    busWrites (LCDI2C_Init s).hal = busWrites s.hal ++
      [(devAddress s.lcd, _LCDI2C_send_cmd_arr 0x30),
       (devAddress s.lcd, _LCDI2C_send_cmd_arr 0x30),
       (devAddress s.lcd, _LCDI2C_send_cmd_arr 0x30),
       (devAddress s.lcd, _LCDI2C_send_cmd_arr s.lcd.disp_bit_mode),
       (devAddress s.lcd, _LCDI2C_send_cmd_arr s.lcd.disp_line),
       (devAddress s.lcd, _LCDI2C_send_cmd_arr 0x08),
       (devAddress s.lcd, _LCDI2C_send_cmd_arr 0x01),
       (devAddress s.lcd, _LCDI2C_send_cmd_arr s.lcd.cursor_direction),
       (devAddress s.lcd, _LCDI2C_send_cmd_arr (0x0C ||| s.lcd.cursor ||| s.lcd.cursor_blink))]
      ∧ (busWrites (LCDI2C_Init s).hal).length = (busWrites s.hal).length + 9
      ∧ ((s.lcd.cursor = 0x0A ∨ s.lcd.cursor = 0x08) →
         (s.lcd.cursor_blink = 0x09 ∨ s.lcd.cursor_blink = 0x08) →
          (0x0C ||| s.lcd.cursor ||| s.lcd.cursor_blink)
              = 0x0C + (if s.lcd.cursor = 0x0A then 2 else 0)
                  + (if s.lcd.cursor_blink = 0x09 then 1 else 0)
            ∧ ((0x0C ||| s.lcd.cursor ||| s.lcd.cursor_blink).testBit 1 = true
                ↔ s.lcd.cursor = 0x0A)
            ∧ ((0x0C ||| s.lcd.cursor ||| s.lcd.cursor_blink).testBit 0 = true
                ↔ s.lcd.cursor_blink = 0x09)) := by
  obtain ⟨_, h2, h3, h4, h5, h6, _⟩ := hwf
  have e2 : s.lcd.disp_bit_mode % 256 = s.lcd.disp_bit_mode := Nat.mod_eq_of_lt h2
  have e3 : s.lcd.disp_line % 256 = s.lcd.disp_line := Nat.mod_eq_of_lt h3
  have e6 : s.lcd.cursor_direction % 256 = s.lcd.cursor_direction := Nat.mod_eq_of_lt h6
  have e45 : (0x0C ||| s.lcd.cursor ||| s.lcd.cursor_blink) % 256
      = 0x0C ||| s.lcd.cursor ||| s.lcd.cursor_blink :=
    or_byte _ _ (Nat.or_lt_two_pow (n := 8) (by decide) h4) h5
  have hw : busWrites (LCDI2C_Init s).hal = busWrites s.hal ++
      [(devAddress s.lcd, _LCDI2C_send_cmd_arr 0x30),
       (devAddress s.lcd, _LCDI2C_send_cmd_arr 0x30),
       (devAddress s.lcd, _LCDI2C_send_cmd_arr 0x30),
       (devAddress s.lcd, _LCDI2C_send_cmd_arr s.lcd.disp_bit_mode),
       (devAddress s.lcd, _LCDI2C_send_cmd_arr s.lcd.disp_line),
       (devAddress s.lcd, _LCDI2C_send_cmd_arr 0x08),
       (devAddress s.lcd, _LCDI2C_send_cmd_arr 0x01),
       (devAddress s.lcd, _LCDI2C_send_cmd_arr s.lcd.cursor_direction),
       (devAddress s.lcd,
         _LCDI2C_send_cmd_arr (0x0C ||| s.lcd.cursor ||| s.lcd.cursor_blink))] := by
    rw [init_trace, e2, e3, e6, e45]
    simp only [busWrites_append, busWrites]
  refine ⟨hw, by rw [hw]; simp, ?_⟩
  intro hc hb
  rcases hc with hc | hc <;> rcases hb with hb | hb <;> rw [hc, hb] <;> decide

theorem init_bus_writes_witness :
    (sampleHandle 0).wellFormed ∧
    busWrites (LCDI2C_Init (sampleDriver 0)).hal =
      [(0x7E, [0x3C, 0x38, 0x0C, 0x08]), (0x7E, [0x3C, 0x38, 0x0C, 0x08]),
       (0x7E, [0x3C, 0x38, 0x0C, 0x08]), (0x7E, [0x2C, 0x28, 0x0C, 0x08]),
       (0x7E, [0x2C, 0x28, 0x8C, 0x88]), (0x7E, [0x0C, 0x08, 0x8C, 0x88]),
       (0x7E, [0x0C, 0x08, 0x1C, 0x18]), (0x7E, [0x0C, 0x08, 0x6C, 0x68]),
       (0x7E, [0x0C, 0x08, 0xCC, 0xC8])] :=
  ⟨by decide, (init_bus_writes (sampleDriver 0) (by decide)).1.trans (by decide)⟩

/-- C12 as stated fails: on the sample handle `LCDI2C_Init` runs nine delays,
`50, 5, 1, 10, 10, 2, 2, 2, 2`, not the seven `50, 5, 1, 10, 2, 2, 2`; its first HAL call
is the delay of 50 (no command precedes it) and its last is the final command (no delay
follows it). -/
theorem init_delays_not_seven :
    delays (LCDI2C_Init (sampleDriver 0)).hal = [50, 5, 1, 10, 10, 2, 2, 2, 2]
      ∧ delays (LCDI2C_Init (sampleDriver 0)).hal ≠ [50, 5, 1, 10, 2, 2, 2]
      ∧ (LCDI2C_Init (sampleDriver 0)).hal.head? = some (HalCall.delay 50)
      ∧ (LCDI2C_Init (sampleDriver 0)).hal.getLast?
          = some (HalCall.transmit 0x7E [0x0C, 0x08, 0xCC, 0xC8]) := by
  decide

/-- C12, amended: for every handle configuration `LCDI2C_Init` appends to the trace, in
this order: delay 50, command `0x30`, delay 5, command `0x30`, delay 1, command `0x30`,
delay 10, the bit-mode command, delay 10, the line-count command, delay 2, display-off,
delay 2, clear-display, delay 2, the cursor-direction command, delay 2, the final
command. So the delays are `50, 5, 1, 10, 10, 2, 2, 2, 2`, each command is preceded by
one delay, and nothing follows the final command. -/
theorem init_delay_schedule (s : Driver) (hwf : s.lcd.wellFormed) :
    (LCDI2C_Init s).hal = s.hal ++
      [HalCall.delay 50,
       HalCall.transmit (devAddress s.lcd) (_LCDI2C_send_cmd_arr 0x30),
       HalCall.delay 5,
       HalCall.transmit (devAddress s.lcd) (_LCDI2C_send_cmd_arr 0x30),
       HalCall.delay 1,
       HalCall.transmit (devAddress s.lcd) (_LCDI2C_send_cmd_arr 0x30),
       HalCall.delay 10,
       HalCall.transmit (devAddress s.lcd) (_LCDI2C_send_cmd_arr s.lcd.disp_bit_mode),
       HalCall.delay 10,
       HalCall.transmit (devAddress s.lcd) (_LCDI2C_send_cmd_arr s.lcd.disp_line),
       HalCall.delay 2,
       HalCall.transmit (devAddress s.lcd) (_LCDI2C_send_cmd_arr 0x08),
       HalCall.delay 2,
       HalCall.transmit (devAddress s.lcd) (_LCDI2C_send_cmd_arr 0x01),
       HalCall.delay 2,
       HalCall.transmit (devAddress s.lcd) (_LCDI2C_send_cmd_arr s.lcd.cursor_direction),
       HalCall.delay 2,
       HalCall.transmit (devAddress s.lcd)
         (_LCDI2C_send_cmd_arr (0x0C ||| s.lcd.cursor ||| s.lcd.cursor_blink))]
      ∧ delays (LCDI2C_Init s).hal = delays s.hal ++ [50, 5, 1, 10, 10, 2, 2, 2, 2] := by
  obtain ⟨_, h2, h3, h4, h5, h6, _⟩ := hwf
  have e2 : s.lcd.disp_bit_mode % 256 = s.lcd.disp_bit_mode := Nat.mod_eq_of_lt h2
  have e3 : s.lcd.disp_line % 256 = s.lcd.disp_line := Nat.mod_eq_of_lt h3
  have e6 : s.lcd.cursor_direction % 256 = s.lcd.cursor_direction := Nat.mod_eq_of_lt h6
  have e45 : (0x0C ||| s.lcd.cursor ||| s.lcd.cursor_blink) % 256
      = 0x0C ||| s.lcd.cursor ||| s.lcd.cursor_blink :=
    or_byte _ _ (Nat.or_lt_two_pow (n := 8) (by decide) h4) h5
  refine ⟨by rw [init_trace, e2, e3, e6, e45], ?_⟩
  rw [init_trace]
  simp only [delays_append, delays]

theorem init_delay_schedule_witness :
    (sampleHandle 3).wellFormed ∧
    delays (LCDI2C_Init (sampleDriver 3)).hal
      = delays (sampleDriver 3).hal ++ [50, 5, 1, 10, 10, 2, 2, 2, 2] :=
  ⟨by decide, (init_delay_schedule (sampleDriver 3) (by decide)).2⟩

/-- C15: for every driver state, `LCDI2C_Clear_Disp` (which adds exactly one bus write,
the command frame of `0x01`), `LCDI2C_Init`, `LCDI2C_Set_Cursor_Dir` and
`_LCDI2C_send_cmd` leave the handle, and so the address counter, exactly as it was; with
the address counter at 7, neither `LCDI2C_Clear_Disp` nor `LCDI2C_Init` resets it to 0. -/
theorem address_counter_frame (s : Driver) (dir cmd : Nat) :
    ((LCDI2C_Clear_Disp s).lcd = s.lcd ∧ (LCDI2C_Clear_Disp s).lcd._AC = s.lcd._AC
        ∧ (LCDI2C_Clear_Disp s).hal
            = s.hal ++ [HalCall.transmit (devAddress s.lcd) (_LCDI2C_send_cmd_arr 0x01)]
        ∧ _LCDI2C_send_cmd_arr 0x01 = [0x0C, 0x08, 0x1C, 0x18])
      ∧ ((LCDI2C_Init s).lcd = s.lcd ∧ (LCDI2C_Init s).lcd._AC = s.lcd._AC)
      ∧ ((LCDI2C_Set_Cursor_Dir s dir).lcd = s.lcd
        ∧ (LCDI2C_Set_Cursor_Dir s dir).lcd._AC = s.lcd._AC)
      ∧ ((_LCDI2C_send_cmd s cmd).lcd = s.lcd ∧ (_LCDI2C_send_cmd s cmd).lcd._AC = s.lcd._AC)
      ∧ ((LCDI2C_Clear_Disp (sampleDriver 7)).lcd._AC = 7
        ∧ (LCDI2C_Init (sampleDriver 7)).lcd._AC = 7) := by
  have hclr : (LCDI2C_Clear_Disp s).lcd = s.lcd := rfl
  have hini : (LCDI2C_Init s).lcd = s.lcd := by rw [init_trace]
  have hcmd : (_LCDI2C_send_cmd s cmd).lcd = s.lcd := rfl
  have hdir : (LCDI2C_Set_Cursor_Dir s dir).lcd = s.lcd := by
    unfold LCDI2C_Set_Cursor_Dir
    by_cases h : dir % 256 = LCDI2C_CURSOR_RIGHT ∨ dir % 256 = LCDI2C_CURSOR_LEFT
    · simp only [h, if_true]; rfl
    · simp only [h, if_false]
  refine ⟨⟨hclr, by rw [hclr], ?_, by decide⟩, ⟨hini, by rw [hini]⟩, ⟨hdir, by rw [hdir]⟩,
    ⟨hcmd, by rw [hcmd]⟩, by decide, by decide⟩
  simp [LCDI2C_Clear_Disp, _LCDI2C_send_cmd, LCDI2C_DISPLAY_CLEAR]

/-! ## The character write, case by case -/

theorem send_char_eq (s : Driver) (ch : Nat) :
    _LCDI2C_send_char s ch =
      if s.lcd._AC = 0x10 then
        { lcd := { s.lcd with _AC := 0x41 },
          hal := s.hal ++ [HalCall.transmit (devAddress s.lcd) (_LCDI2C_send_cmd_arr 0xC0),
                           HalCall.transmit (devAddress s.lcd) (_LCDI2C_send_char_arr (ch % 256))],
          sent := s.sent ++ [ch % 256] }
      else if s.lcd._AC ≤ 0x4F then
        { lcd := { s.lcd with _AC := s.lcd._AC + 1 },
          hal := s.hal ++ [HalCall.transmit (devAddress s.lcd) (_LCDI2C_send_char_arr (ch % 256))],
          sent := s.sent ++ [ch % 256] }
      else { s with sent := s.sent ++ [ch % 256] } := by
  by_cases h1 : s.lcd._AC = 0x10
  · simp [_LCDI2C_send_char, _LCDI2C_send_cmd, h1, devAddress]
  · by_cases h2 : s.lcd._AC ≤ 0x4F
    · have hac : (s.lcd._AC + 1) % 256 = s.lcd._AC + 1 := Nat.mod_eq_of_lt (by omega)
      simp [_LCDI2C_send_char, h1, h2, hac, devAddress]
    · simp [_LCDI2C_send_char, h1, h2]

theorem send_char_arr_length (ch : Nat) : (_LCDI2C_send_char_arr ch).length = 4 := rfl

theorem send_cmd_arr_length (cmd : Nat) : (_LCDI2C_send_cmd_arr cmd).length = 4 := rfl

/-- C13 as stated fails: with the address counter at 3 `_LCDI2C_send_char` moves it to 4;
with the counter at `0x10` it makes two bus writes, and with the counter at `0x50`
none. -/
theorem send_char_moves_counter :
    (_LCDI2C_send_char (sampleDriver 3) 0x41).lcd._AC = 4
      ∧ (_LCDI2C_send_char (sampleDriver 3) 0x41).lcd._AC ≠ (sampleDriver 3).lcd._AC
      ∧ (busWrites (_LCDI2C_send_char (sampleDriver 0x10) 0x41).hal).length = 2
      ∧ (busWrites (_LCDI2C_send_char (sampleDriver 0x50) 0x41).hal).length = 0 := by
  decide

/-- C13, amended: for every driver state and every 8-bit `ch`, `_LCDI2C_send_cmd` does no
address bookkeeping and adds one bus write of exactly 4 bytes, while `_LCDI2C_send_char`
keeps the address counter `AC` itself: for `AC <= 0x4F`, `AC != 0x10` it adds one bus
write of 4 bytes and sets the counter to `AC + 1`; for `AC = 0x10` it adds two bus writes
of 4 bytes each (command `0xC0`, then the character) and sets the counter to `0x41`; for
`AC > 0x4F` it adds no bus write and leaves the counter as it was. -/
theorem send_char_bookkeeping (s : Driver) (ch : Nat) (hch : ch < 256) :
    ((_LCDI2C_send_cmd s ch).lcd._AC = s.lcd._AC
        ∧ busWrites (_LCDI2C_send_cmd s ch).hal
            = busWrites s.hal ++ [(devAddress s.lcd, _LCDI2C_send_cmd_arr ch)]
        ∧ (_LCDI2C_send_cmd_arr ch).length = 4)
      ∧ (s.lcd._AC ≤ 0x4F → s.lcd._AC ≠ 0x10 →
          busWrites (_LCDI2C_send_char s ch).hal
              = busWrites s.hal ++ [(devAddress s.lcd, _LCDI2C_send_char_arr ch)]
            ∧ (_LCDI2C_send_char s ch).lcd._AC = s.lcd._AC + 1)
      ∧ (s.lcd._AC = 0x10 →
          busWrites (_LCDI2C_send_char s ch).hal
              = busWrites s.hal ++ [(devAddress s.lcd, _LCDI2C_send_cmd_arr 0xC0),
                                    (devAddress s.lcd, _LCDI2C_send_char_arr ch)]
            ∧ (_LCDI2C_send_char s ch).lcd._AC = 0x41)
      ∧ (0x4F < s.lcd._AC →
          busWrites (_LCDI2C_send_char s ch).hal = busWrites s.hal
            ∧ (_LCDI2C_send_char s ch).lcd._AC = s.lcd._AC)
      ∧ (_LCDI2C_send_char_arr ch).length = 4 ∧ (_LCDI2C_send_cmd_arr 0xC0).length = 4 := by
  have hm : ch % 256 = ch := Nat.mod_eq_of_lt hch
  refine ⟨⟨rfl, ?_, rfl⟩, ?_, ?_, ?_, rfl, rfl⟩
  · simp [_LCDI2C_send_cmd, hm, busWrites_append, busWrites]
  · intro hle hne
    rw [send_char_eq, if_neg hne, if_pos hle, hm]
    simp [busWrites_append, busWrites]
  · intro h10
    rw [send_char_eq, if_pos h10, hm]
    simp [busWrites_append, busWrites]
  · intro hgt
    have hne : s.lcd._AC ≠ 0x10 := by omega
    have hnle : ¬ s.lcd._AC ≤ 0x4F := by omega
    rw [send_char_eq, if_neg hne, if_neg hnle]
    exact ⟨rfl, rfl⟩

theorem send_char_bookkeeping_witness :
    (0x41 : Nat) < 256 ∧
    busWrites (_LCDI2C_send_char (sampleDriver 0x10) 0x41).hal
      = [(0x7E, [0xCC, 0xC8, 0x0C, 0x08]), (0x7E, [0x4D, 0x49, 0x1D, 0x19])] ∧
    (_LCDI2C_send_char (sampleDriver 0x10) 0x41).lcd._AC = 0x41 :=
  ⟨by decide,
    ((send_char_bookkeeping (sampleDriver 0x10) 0x41 (by decide)).2.2.1 (by decide)).1.trans
      (by decide),
    ((send_char_bookkeeping (sampleDriver 0x10) 0x41 (by decide)).2.2.1 (by decide)).2⟩

/-- C14 as stated fails: with the address counter at `0x20`, which lies in `0x10..0x3F`
and in neither row segment, `_LCDI2C_send_char` transmits the character frame and moves
the counter to `0x21`. -/
theorem char_frame_outside_segments :
    (sampleDriver 0x20).lcd._AC = 0x20
      ∧ (0x10 ≤ (sampleDriver 0x20).lcd._AC ∧ (sampleDriver 0x20).lcd._AC ≤ 0x3F)
      ∧ ¬ ((sampleDriver 0x20).lcd._AC ≤ 0x0F
            ∨ (0x40 ≤ (sampleDriver 0x20).lcd._AC ∧ (sampleDriver 0x20).lcd._AC ≤ 0x4F))
      ∧ (_LCDI2C_send_char (sampleDriver 0x20) 0x41).hal
          = [HalCall.transmit 0x7E (_LCDI2C_send_char_arr 0x41)]
      ∧ (_LCDI2C_send_char (sampleDriver 0x20) 0x41).lcd._AC = 0x21 := by
  decide

/-- C14, amended: for every driver state and every 8-bit `ch`, writing `adj` for the
address counter after the `0x10`-to-`0x40` adjustment and `pre` for the trace after that
adjustment (the old trace, plus the command frame of `0xC0` if the counter was `0x10`),
`_LCDI2C_send_char` transmits the character frame, as the one call after `pre`, if and
only if `adj <= 0x4F`; for `adj > 0x4F` the trace stays `pre`, which then is the old
trace: counter values above `0x4F` are out of bounds and get no character frame. -/
theorem char_frame_iff (s : Driver) (ch : Nat) (hch : ch < 256) :
    ((_LCDI2C_send_char s ch).hal
          = (s.hal ++ (if s.lcd._AC = 0x10
                then [HalCall.transmit (devAddress s.lcd) (_LCDI2C_send_cmd_arr 0xC0)] else []))
              ++ [HalCall.transmit (devAddress s.lcd) (_LCDI2C_send_char_arr ch)]
        ↔ (if s.lcd._AC = 0x10 then 0x40 else s.lcd._AC) ≤ 0x4F)
      ∧ ((_LCDI2C_send_char s ch).hal
          = s.hal ++ (if s.lcd._AC = 0x10
                then [HalCall.transmit (devAddress s.lcd) (_LCDI2C_send_cmd_arr 0xC0)] else [])
        ↔ 0x4F < (if s.lcd._AC = 0x10 then 0x40 else s.lcd._AC))
      ∧ (0x4F < s.lcd._AC → (_LCDI2C_send_char s ch).hal = s.hal
          ∧ (_LCDI2C_send_char s ch).lcd = s.lcd) := by
  have hm : ch % 256 = ch := Nat.mod_eq_of_lt hch
  by_cases h10 : s.lcd._AC = 0x10
  · rw [send_char_eq, if_pos h10, hm]
    simp [h10]
  · by_cases hle : s.lcd._AC ≤ 0x4F
    · rw [send_char_eq, if_neg h10, if_pos hle, hm]
      have : ¬ 0x4F < s.lcd._AC := by omega
      simp [h10, hle, this]
    · rw [send_char_eq, if_neg h10, if_neg hle]
      have : 0x4F < s.lcd._AC := by omega
      simp [h10, hle, this]

theorem char_frame_iff_witness :
    (0x41 : Nat) < 256 ∧
    (_LCDI2C_send_char (sampleDriver 0x51) 0x41).hal = (sampleDriver 0x51).hal :=
  ⟨by decide, ((char_frame_iff (sampleDriver 0x51) 0x41 (by decide)).2.2 (by decide)).1⟩

/-! ## Floating point: alignment policy and the local arrays -/

theorem nullIndx_c_str (buf : List Nat) (h : (c_str buf).length < 256) :
    nullIndx buf = (c_str buf).length := by
  induction buf with
  | nil => rfl
  | cons c buf ih =>
    by_cases hc : c = 0
    · simp [nullIndx, c_str, hc]
    · simp only [c_str, hc, if_false, List.length_cons] at h
      simp only [nullIndx, c_str, hc, if_false, List.length_cons, ih (by omega)]
      exact Nat.mod_eq_of_lt h

theorem send_string_c_str (buf : List Nat) :
    ∀ s : Driver, LCDI2C_Send_String s buf = (c_str buf).foldl _LCDI2C_send_char s := by
  induction buf with
  | nil => intro s; rfl
  | cons c buf ih =>
    intro s
    by_cases hc : c = 0
    · simp [LCDI2C_Send_String, c_str, hc]
    · simp [LCDI2C_Send_String, c_str, hc, ih]

theorem c_str_terminated (text rest : List Nat) (hz : ∀ c ∈ text, c ≠ 0) :
    c_str (text ++ 0 :: rest) = text := by
  induction text with
  | nil => simp [c_str]
  | cons c text ih =>
    have hc : c ≠ 0 := hz c (by simp)
    have ht : ∀ d ∈ text, d ≠ 0 := fun d hd => hz d (by simp [hd])
    simp [c_str, hc, ih ht]

theorem spc_policy (s : Driver) (buf : List Nat) (w : Int)
    (hlen : (c_str buf).length < 256) :
    (if (nullIndx buf : Int) > w then for_send_char 0x23 w.toNat s
      else LCDI2C_Send_String (for_send_char 0x20 (w - (nullIndx buf : Int)).toNat s) buf)
      = (alignPolicy (c_str buf) w).foldl _LCDI2C_send_char s := by
  rw [nullIndx_c_str buf hlen]
  unfold alignPolicy
  by_cases h : ((c_str buf).length : Int) > w
  · rw [if_pos h, if_pos h, for_send_char_fold]
  · rw [if_neg h, if_neg h, send_string_c_str, for_send_char_fold, List.foldl_append]

theorem alignPolicy_bytes (t : List Nat) (w : Int) (ht : ∀ c ∈ t, c < 256) :
    ∀ c ∈ alignPolicy t w, c < 256 := by
  intro c hc
  unfold alignPolicy at hc
  split at hc
  · rw [List.eq_of_mem_replicate hc]; decide
  · rcases List.mem_append.1 hc with h | h
    · rw [List.eq_of_mem_replicate h]; decide
    · exact ht c h

theorem send_int_spc_policy (s : Driver) (v : Nat) (w : Int) (hv : v < 2 ^ 32)
    (hlo : -128 ≤ w) (hhi : w ≤ 127) :
    LCDI2C_Send_Int_Spc s v w = (alignPolicy (decimalText v) w).foldl _LCDI2C_send_char s
      ∧ (LCDI2C_Send_Int_Spc s v w).sent = s.sent ++ alignPolicy (decimalText v) w := by
  have h8 : toInt8 w = w := by unfold toInt8; omega
  have hct : c_str (sprintf_lu v) = decimalText v := by
    rw [sprintf_lu_eq v hv]; exact c_str_terminated _ [] (decimalText_nonzero v)
  have hint : LCDI2C_Send_Int_Spc s v w
      = (alignPolicy (decimalText v) w).foldl _LCDI2C_send_char s := by
    have hl : (c_str (sprintf_lu v)).length < 256 := by
      rw [hct]; have := (decimalText_length v hv).2; omega
    have := spc_policy s (sprintf_lu v) w hl
    rw [hct] at this
    rw [← this]
    unfold LCDI2C_Send_Int_Spc
    simp only [h8]
  refine ⟨hint, ?_⟩
  rw [hint]
  exact fold_send_char_sent _ s (alignPolicy_bytes _ w (decimalText_bytes v))

theorem clamp_le (p : Nat) : (if p % 256 > 9 then 9 else p % 256) ≤ 9 := by
  split <;> omega

theorem float_format_overflows (p : Nat) (hp : p ≤ 9) :
    float_format p = Except.error Fault.prec_buff := by
  interval_cases p <;> rfl

/-- C16, the code at its inputs: `LCDI2C_Send_Float` never reaches the formatter. For
every driver state, value and precision the run ends at `strcat(prec_buff, "f")`, which
stores the three bytes digit, `f`, terminator in `prec_buff[2]`; with that array large
enough, `strcat(dest_buff, prec_buff)` would store the five bytes of `%.Nf` and the
terminator in `dest_buff[4]`. So no precision, neither `p` nor the clamped 9, reaches
the formatter in a defined way, for `p = 2`, `p = 9` and `p = 12` alike. -/
theorem send_float_overflows {F : Type} (sprintf_f : List Nat → F → List Nat) (s : Driver)
    (x : F) (p : Nat) :
    LCDI2C_Send_Float sprintf_f s x p = Except.error Fault.prec_buff
      ∧ store Fault.prec_buff 2 (sprintf_i 2) = Except.ok [0x32, 0]
      ∧ strcat [0x32, 0] [0x66, 0] = [0x32, 0x66, 0]
      ∧ store Fault.prec_buff 2 [0x32, 0x66, 0] = Except.error Fault.prec_buff
      ∧ strcat [0x25, 0x2E, 0, 0] [0x32, 0x66, 0] = [0x25, 0x2E, 0x32, 0x66, 0]
      ∧ store Fault.dest_buff 4 [0x25, 0x2E, 0x32, 0x66, 0] = Except.error Fault.dest_buff
      ∧ LCDI2C_Send_Float sampleFormatter (sampleDriver 0) 0 2 = Except.error Fault.prec_buff
      ∧ LCDI2C_Send_Float sampleFormatter (sampleDriver 0) 0 9 = Except.error Fault.prec_buff
      ∧ LCDI2C_Send_Float sampleFormatter (sampleDriver 0) 0 12
          = Except.error Fault.prec_buff := by
  refine ⟨?_, rfl, rfl, rfl, rfl, rfl, rfl, rfl, rfl⟩
  unfold LCDI2C_Send_Float
  simp only [float_format_overflows _ (clamp_le p)]
  rfl

/-- C17, the code at its inputs: `LCDI2C_Send_Float_Spc` never reaches the alignment.
For every driver state, value, precision and width the run ends at
`strcat(prec_buff, "f")`, the same store past the end of `prec_buff[2]` as in
`LCDI2C_Send_Float`, so no character is submitted in a defined way; for the text `3.14`
and width 6 the policy asks for two spaces and `3.14`, which is what
`LCDI2C_Send_Int_Spc` does on its side for the text `5`: five spaces and `5`. -/
theorem send_float_spc_overflows {F : Type} (sprintf_f : List Nat → F → List Nat)
    (s : Driver) (x : F) (p : Nat) (w : Int) :
    LCDI2C_Send_Float_Spc sprintf_f s x p w = Except.error Fault.prec_buff
      ∧ LCDI2C_Send_Float_Spc sampleFormatter (sampleDriver 0) 0 2 6
          = Except.error Fault.prec_buff
      ∧ alignPolicy [0x33, 0x2E, 0x31, 0x34] 6 = [0x20, 0x20, 0x33, 0x2E, 0x31, 0x34]
      ∧ (LCDI2C_Send_Int_Spc (sampleDriver 0) 5 6).sent = alignPolicy (decimalText 5) 6
      ∧ alignPolicy (decimalText 5) 6 = [0x20, 0x20, 0x20, 0x20, 0x20, 0x35] := by
  refine ⟨?_, rfl, by decide, by decide, by decide⟩
  unfold LCDI2C_Send_Float_Spc
  simp only [float_format_overflows _ (clamp_le p)]
  rfl

/-! ## Runs of character writes -/

theorem run_plain (text : List Nat) :
    ∀ s : Driver, (∀ c ∈ text, c < 256) →
      (s.lcd._AC + text.length ≤ 0x10 ∨ (0x11 ≤ s.lcd._AC ∧ s.lcd._AC + text.length ≤ 0x50)) →
      text.foldl _LCDI2C_send_char s =
        { lcd := { s.lcd with _AC := s.lcd._AC + text.length },
          hal := s.hal ++ text.map
            (fun c => HalCall.transmit (devAddress s.lcd) (_LCDI2C_send_char_arr c)),
          sent := s.sent ++ text } := by
  induction text with
  | nil => intro s _ _; simp
  | cons c text ih =>
    intro s hb hr
    have hc : c % 256 = c := Nat.mod_eq_of_lt (hb c (by simp))
    have ht : ∀ d ∈ text, d < 256 := fun d hd => hb d (by simp [hd])
    simp only [List.length_cons] at hr
    have hne : s.lcd._AC ≠ 0x10 := by omega
    have hle : s.lcd._AC ≤ 0x4F := by omega
    rw [List.foldl_cons, send_char_eq, if_neg hne, if_pos hle, hc, ih _ ht (by simp; omega)]
    simp [devAddress, Nat.add_assoc, Nat.add_comm 1]

theorem run_dropped (text : List Nat) :
    ∀ s : Driver, (∀ c ∈ text, c < 256) → 0x4F < s.lcd._AC →
      text.foldl _LCDI2C_send_char s = { s with sent := s.sent ++ text } := by
  induction text with
  | nil => intro s _ _; simp
  | cons c text ih =>
    intro s hb hgt
    have hc : c % 256 = c := Nat.mod_eq_of_lt (hb c (by simp))
    have ht : ∀ d ∈ text, d < 256 := fun d hd => hb d (by simp [hd])
    have hne : s.lcd._AC ≠ 0x10 := by omega
    have hnle : ¬ s.lcd._AC ≤ 0x4F := by omega
    rw [List.foldl_cons, send_char_eq, if_neg hne, if_neg hnle, hc, ih _ ht (by simpa using hgt)]
    simp

theorem run_row1 (r : List Nat) (s : Driver) (hb : ∀ c ∈ r, c < 256)
    (hac : s.lcd._AC = 0x41) :
    r.foldl _LCDI2C_send_char s =
      { lcd := { s.lcd with _AC := 0x41 + min r.length 15 },
        hal := s.hal ++ (r.take 15).map
          (fun c => HalCall.transmit (devAddress s.lcd) (_LCDI2C_send_char_arr c)),
        sent := s.sent ++ r } := by
  have hbt : ∀ c ∈ r.take 15, c < 256 := fun c hc => hb c (List.mem_of_mem_take hc)
  have hbd : ∀ c ∈ r.drop 15, c < 256 := fun c hc => hb c (List.mem_of_mem_drop hc)
  have hlt : (r.take 15).length = min 15 r.length := List.length_take 15 r
  have hsplit : r.foldl _LCDI2C_send_char s
      = (r.drop 15).foldl _LCDI2C_send_char ((r.take 15).foldl _LCDI2C_send_char s) := by
    rw [← List.foldl_append, List.take_append_drop]
  rw [hsplit, run_plain (r.take 15) s hbt (Or.inr ⟨by omega, by omega⟩)]
  by_cases hn : r.length ≤ 15
  · have hd : r.drop 15 = [] := List.drop_of_length_le hn
    have ht : r.take 15 = r := List.take_of_length_le hn
    rw [hd, ht, hac]
    have : min r.length 15 = r.length := by omega
    simp [this]
  · rw [run_dropped _ _ hbd (by simp only [hac, hlt]; omega)]
    have h15 : min r.length 15 = 15 := by omega
    have h15b : min 15 r.length = 15 := by omega
    simp [hac, hlt, h15, h15b, List.append_assoc, List.take_append_drop]

theorem run_wrap (t1 r : List Nat) (c : Nat) (s : Driver) (hb1 : ∀ d ∈ t1, d < 256)
    (hc : c < 256) (hbr : ∀ d ∈ r, d < 256) (hac : s.lcd._AC = 0) (h1 : t1.length = 16) :
    (t1 ++ c :: r).foldl _LCDI2C_send_char s =
      { lcd := { s.lcd with _AC := 0x41 + min r.length 15 },
        hal := s.hal
          ++ t1.map (fun c => HalCall.transmit (devAddress s.lcd) (_LCDI2C_send_char_arr c))
          ++ [HalCall.transmit (devAddress s.lcd) (_LCDI2C_send_cmd_arr 0xC0)]
          ++ (c :: r.take 15).map
              (fun c => HalCall.transmit (devAddress s.lcd) (_LCDI2C_send_char_arr c)),
        sent := s.sent ++ (t1 ++ c :: r) } := by
  have hcm : c % 256 = c := Nat.mod_eq_of_lt hc
  rw [List.foldl_append, run_plain t1 s hb1 (Or.inl (by omega)), List.foldl_cons,
    send_char_eq, if_pos (by simp [hac, h1]), hcm, run_row1 r _ hbr rfl]
  simp [devAddress, List.append_assoc]

/-- C18: for a text of `n` non-terminator characters sent by `LCDI2C_Send_String` on a
handle whose address counter is `0x00`: the trace grows by the character frames of the
first 16 characters, then, if `n >= 17`, the one command frame of `0xC0` followed by the
character frames of characters 17 to `min(n, 32)`; these are the frames of the first
`min(n, 32)` characters in order, the later characters get none; the address counter
ends at `n` if `n <= 16`, at `0x40 + (n - 16)` if `17 <= n <= 32`, and at `0x50` if
`n > 32`. -/
theorem send_string_from_origin (s : Driver) (text : List Nat)
    (hz : ∀ c ∈ text, c ≠ 0) (hb : ∀ c ∈ text, c < 256) (hac : s.lcd._AC = 0) :
    (LCDI2C_Send_String s text).hal = s.hal
        ++ (text.take 16).map
            (fun c => HalCall.transmit (devAddress s.lcd) (_LCDI2C_send_char_arr c))
        ++ (if 17 ≤ text.length
              then [HalCall.transmit (devAddress s.lcd) (_LCDI2C_send_cmd_arr 0xC0)] else [])
        ++ ((text.drop 16).take 16).map
            (fun c => HalCall.transmit (devAddress s.lcd) (_LCDI2C_send_char_arr c))
      ∧ text.take 16 ++ (text.drop 16).take 16 = text.take 32
      ∧ (text.take 32).length = min text.length 32
      ∧ (LCDI2C_Send_String s text).lcd._AC
          = (if text.length ≤ 16 then text.length
             else if text.length ≤ 32 then 0x40 + (text.length - 16) else 0x50)
      ∧ (LCDI2C_Send_String s text).sent = s.sent ++ text := by
  have htake : text.take 16 ++ (text.drop 16).take 16 = text.take 32 := by
    have h := List.take_add text 16 16
    simpa using h.symm
  have hlen32 : (text.take 32).length = min text.length 32 := by
    rw [List.length_take]; omega
  rw [send_string_fold text s hz]
  by_cases hn : text.length ≤ 16
  · have hnot : ¬ 17 ≤ text.length := by omega
    rw [run_plain text s hb (Or.inl (by omega))]
    refine ⟨?_, htake, hlen32, ?_, rfl⟩
    · simp [List.take_of_length_le hn, List.drop_of_length_le hn, hnot]
    · simp [hn, hac]
  · have h17 : 17 ≤ text.length := by omega
    have h1 : (text.take 16).length = 16 := by rw [List.length_take]; omega
    have hdl : (text.drop 16).length = text.length - 16 := List.length_drop 16 text
    cases hd : text.drop 16 with
    | nil => rw [hd] at hdl; simp at hdl; omega
    | cons c r =>
      have hrl : r.length + 1 = text.length - 16 := by rw [hd] at hdl; simpa using hdl
      have hsplit : text = text.take 16 ++ c :: r := by
        rw [← hd, List.take_append_drop]
      have hb1 : ∀ d ∈ text.take 16, d < 256 := fun d h => hb d (List.mem_of_mem_take h)
      have hbd : ∀ d ∈ text.drop 16, d < 256 := fun d h => hb d (List.mem_of_mem_drop h)
      have hcb : c < 256 := hbd c (by rw [hd]; simp)
      have hbr : ∀ d ∈ r, d < 256 := fun d h => hbd d (by rw [hd]; simp [h])
      have hrun := run_wrap (text.take 16) r c s hb1 hcb hbr hac h1
      rw [← hsplit] at hrun
      rw [hrun]
      refine ⟨?_, by rw [← hd]; exact htake, hlen32, ?_, rfl⟩
      · simp [h17, List.append_assoc]
      · simp only [hn, if_false]
        by_cases h32 : text.length ≤ 32
        · rw [if_pos h32]
          show 0x41 + min r.length 15 = 0x40 + (text.length - 16)
          omega
        · rw [if_neg h32]
          show 0x41 + min r.length 15 = 0x50
          omega

theorem send_string_from_origin_witness :
    (∀ c ∈ List.replicate 40 0x41, c ≠ 0) ∧ (∀ c ∈ List.replicate 40 0x41, c < 256) ∧
    (sampleDriver 0).lcd._AC = 0 ∧
    (LCDI2C_Send_String (sampleDriver 0) (List.replicate 40 0x41)).hal
      = List.replicate 16 (HalCall.transmit 0x7E [0x4D, 0x49, 0x1D, 0x19])
        ++ [HalCall.transmit 0x7E [0xCC, 0xC8, 0x0C, 0x08]]
        ++ List.replicate 16 (HalCall.transmit 0x7E [0x4D, 0x49, 0x1D, 0x19]) ∧
    (LCDI2C_Send_String (sampleDriver 0) (List.replicate 40 0x41)).lcd._AC = 0x50 :=
  ⟨by decide, by decide, by decide,
    (send_string_from_origin (sampleDriver 0) (List.replicate 40 0x41) (by decide) (by decide)
      (by decide)).1.trans (by decide),
    (send_string_from_origin (sampleDriver 0) (List.replicate 40 0x41) (by decide) (by decide)
      (by decide)).2.2.2.1.trans (by decide)⟩

/-! ## The valid counter values are invariant -/

theorem send_char_valid (s : Driver) (ch : Nat) (hv : validAC s.lcd._AC) :
    validAC (_LCDI2C_send_char s ch).lcd._AC := by
  unfold validAC at hv ⊢
  rw [send_char_eq]
  by_cases h1 : s.lcd._AC = 0x10
  · rw [if_pos h1]; show (0x41 : Nat) ≤ 0x10 ∨ (0x40 ≤ 0x41 ∧ 0x41 ≤ 0x50); omega
  · by_cases h2 : s.lcd._AC ≤ 0x4F
    · rw [if_neg h1, if_pos h2]
      show s.lcd._AC + 1 ≤ 0x10 ∨ (0x40 ≤ s.lcd._AC + 1 ∧ s.lcd._AC + 1 ≤ 0x50)
      omega
    · rw [if_neg h1, if_neg h2]; exact hv

theorem fold_send_char_valid (text : List Nat) :
    ∀ s : Driver, validAC s.lcd._AC → validAC (text.foldl _LCDI2C_send_char s).lcd._AC := by
  induction text with
  | nil => intro s hv; exact hv
  | cons c text ih => intro s hv; exact ih _ (send_char_valid s c hv)

theorem send_string_valid (str : List Nat) (s : Driver) (hv : validAC s.lcd._AC) :
    validAC (LCDI2C_Send_String s str).lcd._AC := by
  rw [send_string_c_str]; exact fold_send_char_valid _ s hv

theorem for_send_char_valid (ch k : Nat) (s : Driver) (hv : validAC s.lcd._AC) :
    validAC (for_send_char ch k s).lcd._AC := by
  rw [for_send_char_fold]; exact fold_send_char_valid _ s hv

theorem set_cursor_dir_lcd (s : Driver) (dir : Nat) :
    (LCDI2C_Set_Cursor_Dir s dir).lcd = s.lcd := by
  unfold LCDI2C_Set_Cursor_Dir
  by_cases h : dir % 256 = LCDI2C_CURSOR_RIGHT ∨ dir % 256 = LCDI2C_CURSOR_LEFT
  · simp only [h, if_true]; rfl
  · simp only [h, if_false]

theorem set_cursor_counter (s : Driver) (row col : Nat) :
    (LCDI2C_Set_Cursor s row col).lcd._AC =
      if row % 256 < 2 ∧ col % 256 < 16 then row % 256 * 0x40 + col % 256 else s.lcd._AC := by
  unfold LCDI2C_Set_Cursor
  by_cases h : row % 256 < 2 ∧ col % 256 < 16
  · have hm : (row % 256 * 0x40 + col % 256) % 256 = row % 256 * 0x40 + col % 256 :=
      Nat.mod_eq_of_lt (by omega)
    simp only [h, and_self, if_true, hm]; rfl
  · simp only [h, if_false]

/-- C19: the set `V = {0x00..0x10} ∪ {0x40..0x50}` is an invariant of the address
counter. From a state with the counter in `V`, each of `LCDI2C_Set_Cursor` (any
arguments), `LCDI2C_Set_Cursor_Dir`, `LCDI2C_Clear_Disp`, `_LCDI2C_send_char`,
`LCDI2C_Send_String`, `LCDI2C_Send_Int`, `LCDI2C_Send_Int_Spc` and `LCDI2C_Init` ends with
the counter in `V`; an accepted `LCDI2C_Set_Cursor` puts it in `V` from any state; the
increment in `_LCDI2C_send_char` happens only at an adjusted counter `<= 0x4F` and gives
that value plus one, below 256; and from a state with the counter in `V`, either the
character frame is transmitted with the adjusted counter in `0x00..0x0F` or
`0x40..0x4F`, or the counter is `0x50` and the trace does not change. -/
theorem valid_counter_invariant (s : Driver) (hv : validAC s.lcd._AC)
    (row col dir ch num : Nat) (str : List Nat) (space : Int) :
    (validAC (LCDI2C_Set_Cursor s row col).lcd._AC
        ∧ validAC (LCDI2C_Set_Cursor_Dir s dir).lcd._AC
        ∧ validAC (LCDI2C_Clear_Disp s).lcd._AC
        ∧ validAC (_LCDI2C_send_char s ch).lcd._AC
        ∧ validAC (LCDI2C_Send_String s str).lcd._AC
        ∧ validAC (LCDI2C_Send_Int s num).lcd._AC
        ∧ validAC (LCDI2C_Send_Int_Spc s num space).lcd._AC
        ∧ validAC (LCDI2C_Init s).lcd._AC)
      ∧ (∀ s0 : Driver, row % 256 < 2 → col % 256 < 16 →
          validAC (LCDI2C_Set_Cursor s0 row col).lcd._AC)
      ∧ (∀ s0 : Driver, (if s0.lcd._AC = 0x10 then 0x40 else s0.lcd._AC) ≤ 0x4F →
          (_LCDI2C_send_char s0 ch).lcd._AC
              = (if s0.lcd._AC = 0x10 then 0x40 else s0.lcd._AC) + 1
            ∧ (if s0.lcd._AC = 0x10 then 0x40 else s0.lcd._AC) + 1 < 256)
      ∧ (((_LCDI2C_send_char s ch).hal
              = (s.hal ++ (if s.lcd._AC = 0x10
                    then [HalCall.transmit (devAddress s.lcd) (_LCDI2C_send_cmd_arr 0xC0)]
                    else []))
                  ++ [HalCall.transmit (devAddress s.lcd) (_LCDI2C_send_char_arr (ch % 256))]
            ∧ ((if s.lcd._AC = 0x10 then 0x40 else s.lcd._AC) ≤ 0x0F
                ∨ (0x40 ≤ (if s.lcd._AC = 0x10 then 0x40 else s.lcd._AC)
                    ∧ (if s.lcd._AC = 0x10 then 0x40 else s.lcd._AC) ≤ 0x4F)))
          ∨ ((_LCDI2C_send_char s ch).hal = s.hal ∧ s.lcd._AC = 0x50)) := by
  have hset : ∀ s0 : Driver, row % 256 < 2 → col % 256 < 16 →
      validAC (LCDI2C_Set_Cursor s0 row col).lcd._AC := by
    intro s0 hr hc
    rw [set_cursor_counter, if_pos ⟨hr, hc⟩]
    unfold validAC; omega
  refine ⟨⟨?_, ?_, hv, send_char_valid s ch hv, send_string_valid str s hv,
    send_string_valid _ s hv, ?_, ?_⟩, hset, ?_, ?_⟩
  · by_cases h : row % 256 < 2 ∧ col % 256 < 16
    · exact hset s h.1 h.2
    · rw [set_cursor_counter, if_neg h]; exact hv
  · rw [set_cursor_dir_lcd]; exact hv
  · unfold LCDI2C_Send_Int_Spc
    simp only []
    split
    · exact for_send_char_valid _ _ s hv
    · exact send_string_valid _ _ (for_send_char_valid _ _ s hv)
  · rw [init_trace]; exact hv
  · intro s0 h
    rw [send_char_eq]
    by_cases h1 : s0.lcd._AC = 0x10
    · simp [h1]
    · rw [if_neg h1] at h
      simp only [h1, if_false, h, if_true]
      exact ⟨trivial, by omega⟩
  · unfold validAC at hv
    rw [send_char_eq]
    by_cases h1 : s.lcd._AC = 0x10
    · left; simp [h1]
    · by_cases h2 : s.lcd._AC ≤ 0x4F
      · left
        rw [if_neg h1, if_pos h2]
        simp only [h1, if_false, List.append_nil, true_and]
        omega
      · right
        rw [if_neg h1, if_neg h2]
        exact ⟨rfl, by omega⟩

theorem valid_counter_invariant_witness :
    validAC (sampleDriver 0x0F).lcd._AC ∧
    validAC (LCDI2C_Send_String (sampleDriver 0x0F) [0x48, 0x69, 0x21]).lcd._AC ∧
    (LCDI2C_Send_String (sampleDriver 0x0F) [0x48, 0x69, 0x21]).lcd._AC = 0x42 :=
  ⟨by decide,
    (valid_counter_invariant (sampleDriver 0x0F) (by decide) 0 0 0 0 0 [0x48, 0x69, 0x21]
      0).1.2.2.2.2.1,
    by decide⟩

/-! ## The nibble framing is lossless -/

set_option maxRecDepth 100000 in
theorem cmd_frame_facts : ∀ b, b < 256 →
    (((_LCDI2C_send_cmd_arr b).getD 0 0 &&& 0xF0) ||| ((_LCDI2C_send_cmd_arr b).getD 2 0 >>> 4)) = b
      ∧ (_LCDI2C_send_cmd_arr b).getD 1 0 = (_LCDI2C_send_cmd_arr b).getD 0 0 &&& 0xFB
      ∧ (_LCDI2C_send_cmd_arr b).getD 3 0 = (_LCDI2C_send_cmd_arr b).getD 2 0 &&& 0xFB
      ∧ (_LCDI2C_send_cmd_arr b).getD 0 0 &&& 0x04 = 0x04
      ∧ (_LCDI2C_send_cmd_arr b).getD 2 0 &&& 0x04 = 0x04
      ∧ (_LCDI2C_send_cmd_arr b).getD 0 0 &&& 0x08 = 0x08
      ∧ (_LCDI2C_send_cmd_arr b).getD 1 0 &&& 0x08 = 0x08
      ∧ (_LCDI2C_send_cmd_arr b).getD 2 0 &&& 0x08 = 0x08
      ∧ (_LCDI2C_send_cmd_arr b).getD 3 0 &&& 0x08 = 0x08
      ∧ (_LCDI2C_send_cmd_arr b).getD 0 0 &&& 0x01 = 0
      ∧ (_LCDI2C_send_cmd_arr b).getD 1 0 &&& 0x01 = 0
      ∧ (_LCDI2C_send_cmd_arr b).getD 2 0 &&& 0x01 = 0
      ∧ (_LCDI2C_send_cmd_arr b).getD 3 0 &&& 0x01 = 0 := by
  decide

set_option maxRecDepth 100000 in
theorem char_frame_facts : ∀ b, b < 256 →
    (((_LCDI2C_send_char_arr b).getD 0 0 &&& 0xF0)
        ||| ((_LCDI2C_send_char_arr b).getD 2 0 >>> 4)) = b
      ∧ (_LCDI2C_send_char_arr b).getD 1 0 = (_LCDI2C_send_char_arr b).getD 0 0 &&& 0xFB
      ∧ (_LCDI2C_send_char_arr b).getD 3 0 = (_LCDI2C_send_char_arr b).getD 2 0 &&& 0xFB
      ∧ (_LCDI2C_send_char_arr b).getD 0 0 &&& 0x04 = 0x04
      ∧ (_LCDI2C_send_char_arr b).getD 2 0 &&& 0x04 = 0x04
      ∧ (_LCDI2C_send_char_arr b).getD 0 0 &&& 0x08 = 0x08
      ∧ (_LCDI2C_send_char_arr b).getD 1 0 &&& 0x08 = 0x08
      ∧ (_LCDI2C_send_char_arr b).getD 2 0 &&& 0x08 = 0x08
      ∧ (_LCDI2C_send_char_arr b).getD 3 0 &&& 0x08 = 0x08
      ∧ (_LCDI2C_send_char_arr b).getD 0 0 &&& 0x01 = 1
      ∧ (_LCDI2C_send_char_arr b).getD 1 0 &&& 0x01 = 1
      ∧ (_LCDI2C_send_char_arr b).getD 2 0 &&& 0x01 = 1
      ∧ (_LCDI2C_send_char_arr b).getD 3 0 &&& 0x01 = 1 := by
  decide

/-- C20: the nibble framing is lossless and self-identifying. For every 8-bit `b`, if
`[a0, a1, a2, a3]` is the buffer built for `b` by `_LCDI2C_send_cmd` or by
`_LCDI2C_send_char`, then `(a0 & 0xF0) | (a2 >> 4) = b`, `a0` and `a2` have bit 2 set,
`a1` is `a0` and `a3` is `a2` with bit 2 cleared, and bit 3 is set in all four bytes; a
command buffer has bit 0 clear in all four bytes and a character buffer has it set in all
four; so no command buffer equals a character buffer, and distinct values give distinct
buffers. -/
theorem frame_lossless (b : Nat) (hb : b < 256) (a0 a1 a2 a3 : Nat) :
    ((_LCDI2C_send_cmd_arr b = [a0, a1, a2, a3] ∨ _LCDI2C_send_char_arr b = [a0, a1, a2, a3]) →
        ((a0 &&& 0xF0) ||| (a2 >>> 4)) = b
          ∧ a1 = a0 &&& 0xFB ∧ a3 = a2 &&& 0xFB
          ∧ a0 &&& 0x04 = 0x04 ∧ a2 &&& 0x04 = 0x04
          ∧ a0 &&& 0x08 = 0x08 ∧ a1 &&& 0x08 = 0x08
          ∧ a2 &&& 0x08 = 0x08 ∧ a3 &&& 0x08 = 0x08)
      ∧ (_LCDI2C_send_cmd_arr b = [a0, a1, a2, a3] →
          a0 &&& 0x01 = 0 ∧ a1 &&& 0x01 = 0 ∧ a2 &&& 0x01 = 0 ∧ a3 &&& 0x01 = 0)
      ∧ (_LCDI2C_send_char_arr b = [a0, a1, a2, a3] →
          a0 &&& 0x01 = 1 ∧ a1 &&& 0x01 = 1 ∧ a2 &&& 0x01 = 1 ∧ a3 &&& 0x01 = 1)
      ∧ (∀ c, c < 256 → _LCDI2C_send_cmd_arr b ≠ _LCDI2C_send_char_arr c)
      ∧ (∀ c, c < 256 → _LCDI2C_send_cmd_arr b = _LCDI2C_send_cmd_arr c → b = c)
      ∧ (∀ c, c < 256 → _LCDI2C_send_char_arr b = _LCDI2C_send_char_arr c → b = c) := by
  have fc := cmd_frame_facts b hb
  have fd := char_frame_facts b hb
  refine ⟨?_, ?_, ?_, ?_, ?_, ?_⟩
  · rintro (h | h)
    · rw [h] at fc
      simp only [List.getD_cons_zero, List.getD_cons_succ] at fc
      obtain ⟨h1, h2, h3, h4, h5, h6, h7, h8, h9, _⟩ := fc
      exact ⟨h1, h2, h3, h4, h5, h6, h7, h8, h9⟩
    · rw [h] at fd
      simp only [List.getD_cons_zero, List.getD_cons_succ] at fd
      obtain ⟨h1, h2, h3, h4, h5, h6, h7, h8, h9, _⟩ := fd
      exact ⟨h1, h2, h3, h4, h5, h6, h7, h8, h9⟩
  · intro h
    rw [h] at fc
    simp only [List.getD_cons_zero, List.getD_cons_succ] at fc
    exact fc.2.2.2.2.2.2.2.2.2
  · intro h
    rw [h] at fd
    simp only [List.getD_cons_zero, List.getD_cons_succ] at fd
    exact fd.2.2.2.2.2.2.2.2.2
  · intro c hc he
    have f0 := fc.2.2.2.2.2.2.2.2.2.1
    have g0 := (char_frame_facts c hc).2.2.2.2.2.2.2.2.2.1
    rw [he, g0] at f0
    exact absurd f0 (by decide)
  · intro c hc he
    have g := (cmd_frame_facts c hc).1
    rw [← he, fc.1] at g
    exact g
  · intro c hc he
    have g := (char_frame_facts c hc).1
    rw [← he, fd.1] at g
    exact g

theorem frame_lossless_witness :
    (0xC5 : Nat) < 256 ∧
    (((0xCC : Nat) &&& 0xF0) ||| ((0x5C : Nat) >>> 4)) = 0xC5 ∧
    (0xC8 : Nat) = 0xCC &&& 0xFB ∧ (0x58 : Nat) = 0x5C &&& 0xFB :=
  ⟨by decide,
    ((frame_lossless 0xC5 (by decide) 0xCC 0xC8 0x5C 0x58).1 (Or.inl (by decide))).1,
    ((frame_lossless 0xC5 (by decide) 0xCC 0xC8 0x5C 0x58).1 (Or.inl (by decide))).2.1,
    ((frame_lossless 0xC5 (by decide) 0xCC 0xC8 0x5C 0x58).1 (Or.inl (by decide))).2.2.1⟩

end LCDI2C
